import Mathlib

/-!
# Form validation and submission pipeline (`src/form-validation.js`)

A shallow embedding of the `FormValidator` class: the rule registry built by
`setupValidators`, the field and form validators, the retrying submitter and the
error classifier, followed by the properties proved about them.

JavaScript strings are sequences of UTF-16 code units, so they are modelled as
lists of natural numbers; `js` turns a Lean string literal into such a list.
-/

namespace FormValidation

/-! ## JavaScript strings -/

/-- A JavaScript string, as the list of its UTF-16 code units. -/
abbrev JSString := List Nat

/-- UTF-16 encoding of one Unicode scalar value (a surrogate pair above the BMP). -/
def utf16 (c : Char) : List Nat :=
  if c.toNat < 0x10000 then [c.toNat]
  else [0xD800 + (c.toNat - 0x10000) / 0x400, 0xDC00 + (c.toNat - 0x10000) % 0x400]

/-- The JavaScript string written as the literal `s`. -/
def js (s : String) : JSString := s.toList.flatMap utf16

/-- WhiteSpace and LineTerminator code units: what `String.prototype.trim` strips and
what the regular-expression class `\s` matches. -/
def isWhiteSpace (c : Nat) : Bool :=
  c == 0x09 || c == 0x0A || c == 0x0B || c == 0x0C || c == 0x0D || c == 0x20 ||
  c == 0xA0 || c == 0x1680 || (0x2000 ≤ c && c ≤ 0x200A) || c == 0x2028 ||
  c == 0x2029 || c == 0x202F || c == 0x205F || c == 0x3000 || c == 0xFEFF

/-- `String.prototype.trim`: strip white space from both ends. -/
def trim (s : JSString) : JSString :=
  ((s.dropWhile isWhiteSpace).reverse.dropWhile isWhiteSpace).reverse

/-- Lower-casing of one code unit: `A`-`Z` go to `a`-`z`; every other code unit is kept. -/
def lowerUnit (c : Nat) : Nat :=
  if 0x41 ≤ c ∧ c ≤ 0x5A then c + 0x20 else c

/-- The code units that one code unit becomes in lower case: the Kelvin sign U+212A
becomes `k`, the dotted capital I U+0130 becomes `i` followed by U+0307, `A`-`Z` become
`a`-`z`; every other code unit is kept. -/
def lowerUnits (c : Nat) : List Nat :=
  if c = 0x212A then [0x6B]
  else if c = 0x130 then [0x69, 0x307]
  else [lowerUnit c]

/-- `String.prototype.toLowerCase`, exact on every code unit whose lower case holds an
ASCII character (the letters `A`-`Z` and the two code points above). The letters of other
alphabets are kept as they are: their lower case holds no ASCII character either, so a
search for an ASCII pattern, the only kind the program makes, gives the same answer. -/
def toLowerCase (s : JSString) : JSString := s.flatMap lowerUnits

/-- `String.prototype.includes`: `sub` occurs in `s` as a contiguous run. -/
def includes : JSString → JSString → Bool
  | [], sub => sub.isEmpty
  | c :: s, sub => sub.isPrefixOf (c :: s) || includes s sub

/-- Decimal rendering of a number inside a template literal. -/
def natToJS (n : Nat) : JSString := (Nat.toDigits 10 n).flatMap utf16

/-! ## Regular expressions

The three patterns of `setupValidators` have the shape `/^ ... $/` with no flags, so
`RegExp.prototype.test` holds exactly when the whole string is matched. -/

/-- The regular-expression constructs used by the patterns of `setupValidators`. -/
inductive Regex where
  /-- A character class: one code unit satisfying `p`. -/
  | cls (p : Nat → Bool)
  /-- Concatenation. -/
  | seq (a b : Regex)
  /-- The quantifier `a?`. -/
  | opt (a : Regex)
  /-- The quantifier `a*`. -/
  | star (a : Regex)
  /-- The quantifier `a+`. -/
  | plus (a : Regex)
  /-- The quantifier `a{lo,hi}`. -/
  | rep (lo hi : Nat) (a : Regex)

/-- Iterations of `step` for `*`: after at most `fuel` iterations that each consume input. -/
def starRun (step : JSString → List JSString) : Nat → JSString → List JSString
  | 0, s => [s]
  | fuel + 1, s =>
    s :: ((step s).filter (fun t => t.length < s.length)).flatMap (starRun step fuel)

/-- Iterations of `step` for `{lo,hi}`: between `lo` and `hi` of them. -/
def repRun (step : JSString → List JSString) : Nat → Nat → JSString → List JSString
  | lo, 0, s => if lo = 0 then [s] else []
  | lo, hi + 1, s =>
    (if lo = 0 then [s] else []) ++ (step s).flatMap (repRun step (lo - 1) hi)

/-- All the ways `r` can match at the start of `s`: the list of what is left of `s`
after each possible match. -/
def Regex.run : Regex → JSString → List JSString
  | .cls p => fun s =>
    match s with
    | [] => []
    | c :: t => if p c then [t] else []
  | .seq a b => fun s => (a.run s).flatMap b.run
  | .opt a => fun s => s :: a.run s
  | .star a => fun s => starRun a.run s.length s
  | .plus a => fun s => (a.run s).flatMap (fun t => starRun a.run t.length t)
  | .rep lo hi a => fun s => repRun a.run lo hi s

/-- The method `test` of the pattern `/^r$/`: some match of `r` uses up the whole of `s`. -/
def Regex.test (r : Regex) (s : JSString) : Bool := (r.run s).any List.isEmpty

/-- Membership of a code unit in an inclusive range such as `a-z`. -/
def inRange (lo hi : Char) (c : Nat) : Bool := lo.toNat ≤ c && c ≤ hi.toNat

/-- The class `[a-zA-Z0-9]`. -/
def isAlnum (c : Nat) : Bool := inRange 'a' 'z' c || inRange 'A' 'Z' c || inRange '0' '9' c

/-- The class `[a-zA-Z0-9-]`. -/
def isAlnumHyphen (c : Nat) : Bool := isAlnum c || c == 0x2D

/-- The class of the local part of the email pattern: letters, digits, the marks
`. ! # $ % & * + / = ? ^ _ | ~ -`, the apostrophe (39), the backtick (96) and the two
braces (123, 125). -/
def isEmailLocal (c : Nat) : Bool :=
  isAlnum c || (js ".!#$%&*+/=?^_|~-").contains c || c == 39 || c == 96 || c == 123 || c == 125

/-- The class `[a-zA-Z\s.'-]` of the name pattern (39 is the apostrophe). -/
def isNameChar (c : Nat) : Bool :=
  inRange 'a' 'z' c || inRange 'A' 'Z' c || isWhiteSpace c || c == 0x2E || c == 39 || c == 0x2D

/-- A literal character in a pattern. -/
def Regex.chr (c : Char) : Regex := .cls (fun u => u == c.toNat)

/-- The label `[a-zA-Z0-9](?:[a-zA-Z0-9-]{0,61}[a-zA-Z0-9])?` of the email pattern. -/
def emailLabel : Regex :=
  .seq (.cls isAlnum) (.opt (.seq (.rep 0 61 (.cls isAlnumHyphen)) (.cls isAlnum)))

/-- The email pattern: a local part, `@`, a label, then `(?:\.label)*`. -/
def emailPattern : Regex :=
  .seq (.plus (.cls isEmailLocal))
    (.seq (Regex.chr '@') (.seq emailLabel (.star (.seq (Regex.chr '.') emailLabel))))

/-- The phone pattern `/^(\+91[\s-]?)?[6789]\d{9}$/`. -/
def phonePattern : Regex :=
  .seq
    (.opt (.seq (Regex.chr '+') (.seq (Regex.chr '9') (.seq (Regex.chr '1')
      (.opt (.cls (fun c => isWhiteSpace c || c == 0x2D)))))))
    (.seq (.cls (fun c => (js "6789").contains c)) (.rep 9 9 (.cls (inRange '0' '9'))))

/-- The name pattern `/^[a-zA-Z\s.'-]{2,50}$/`. -/
def namePattern : Regex := .rep 2 50 (.cls isNameChar)

/-! ## The rule registry -/

/-- An entry of the `validators` map: a pattern rule or a predicate rule, each with the
message shown when it rejects. -/
inductive Validator where
  | pattern (re : Regex) (message : String)
  | validate (f : JSString → Bool) (message : String)

/-- The failure message of a rule. -/
def Validator.message : Validator → String
  | .pattern _ m => m
  | .validate _ m => m

/-- The body of the loop of `validateField` for one rule: `pattern.test(value)` for a
pattern rule, `validate(value)` (its truthiness) for a predicate rule. -/
def Validator.accepts : Validator → JSString → Bool
  | .pattern re _, value => re.test value
  | .validate f _, value => f value

/-- The `validators` map: rule name to rule, `none` for a name never registered. -/
abbrev Registry := String → Option Validator

/-- The registry filled by `setupValidators`. -/
def setupValidators : Registry := fun ruleName =>
  if ruleName = "email" then
    some (.pattern emailPattern "Please enter a valid email address")
  else if ruleName = "phone" then
    some (.pattern phonePattern
      "Please enter a valid Indian phone number (e.g., +91-9876543210)")
  else if ruleName = "name" then
    some (.pattern namePattern
      "Name must be 2-50 characters and contain only letters, spaces, dots, hyphens, and apostrophes")
  else if ruleName = "required" then
    some (.validate (fun value => !value.isEmpty && decide ((trim value).length > 0))
      "This field is required")
  else if ruleName = "message" then
    some (.validate (fun value => !value.isEmpty && decide ((trim value).length ≥ 10))
      "Message must be at least 10 characters long")
  else if ruleName = "service" then
    some (.validate
      (fun value => !value.isEmpty && value != [] && value != js "Select a service")
      "Please select a service from the dropdown")
  else none

/-! ## Fields and their presentation state -/

/-- The element `document.getElementById(field.name + "Error")` that shows a message. -/
structure ErrorElement where
  /-- Its `textContent`. -/
  textContent : String
  /-- Whether its class list holds `show`. -/
  shown : Bool
  deriving DecidableEq, Repr

/-- A form control with what `validateField` reads and writes. -/
structure Field where
  /-- The attribute `name`. -/
  name : String
  /-- The current `value`. -/
  value : JSString
  /-- Whether the class list holds `error`. -/
  classError : Bool
  /-- Whether the class list holds `success`. -/
  classSuccess : Bool
  /-- The attribute `aria-invalid`, when set. -/
  ariaInvalid : Option String
  /-- The attribute `aria-describedby`, when set. -/
  ariaDescribedby : Option String
  /-- The inline `style.animation`. -/
  animation : String
  /-- The message element of the field, when the page has one. -/
  errorElement : Option ErrorElement
  deriving DecidableEq, Repr

/-- The method `clearFieldError`. -/
def clearFieldError (field : Field) : Field :=
  { field with
    classError := false
    classSuccess := false
    errorElement := field.errorElement.map (fun e => { e with shown := false })
    ariaInvalid := none
    ariaDescribedby := none }

/-- The method `showFieldError` (the shake is started; its timer resets it later). -/
def showFieldError (field : Field) (message : String) : Field :=
  { field with
    classError := true
    classSuccess := false
    errorElement := field.errorElement.map (fun _ => { textContent := message, shown := true })
    animation := "shake 0.5s ease-in-out"
    ariaInvalid := some "true"
    ariaDescribedby := some (field.name ++ "Error") }

/-- The method `showFieldSuccess`. -/
def showFieldSuccess (field : Field) : Field :=
  { field with
    classError := false
    classSuccess := true
    errorElement := field.errorElement.map (fun e => { e with shown := false })
    ariaInvalid := some "false"
    ariaDescribedby := none }

/-- One run of `validateField`. -/
structure FieldRun where
  /-- The field afterwards. -/
  field : Field
  /-- The names of the rules whose check was run, in order. -/
  evaluated : List String
  /-- The messages handed to `showFieldError`, in order. -/
  reported : List String
  /-- The boolean returned, or `none` when the lookup of an unregistered rule name
  raised a `TypeError`. -/
  result : Option Bool

/-- The loop `for (const validatorName of validators)` of `validateField`, with the
success marking that follows it. -/
def runValidators (validators : Registry) (value : JSString) (field : Field) :
    List String → FieldRun
  | [] => { field := showFieldSuccess field, evaluated := [], reported := [], result := some true }
  | validatorName :: rest =>
    match validators validatorName with
    | none => { field := field, evaluated := [], reported := [], result := none }
    | some validator =>
      if validator.accepts value then
        let later := runValidators validators value field rest
        { later with evaluated := validatorName :: later.evaluated }
      else
        { field := showFieldError field validator.message
          evaluated := [validatorName]
          reported := [validator.message]
          result := some false }

/-- The method `validateField(field, validators)`; `rules` is its second argument. -/
def validateField (validators : Registry) (field : Field) (rules : List String) : FieldRun :=
  let value := trim field.value
  let field := clearFieldError field
  if value = [] ∧ ¬ rules.contains "required" then
    { field := field, evaluated := [], reported := [], result := some true }
  else
    runValidators validators value field rules

/-- A rule name accepts a value: the name is registered and its rule accepts. -/
def ruleAccepts (validators : Registry) (value : JSString) (ruleName : String) : Bool :=
  match validators ruleName with
  | some validator => validator.accepts value
  | none => false

/-! ## Forms -/

/-- The two submit handlers bound by `initializeForms`. -/
inductive SubmitHandler where
  | handleContactSubmit
  | handleNewsletterSubmit
  deriving DecidableEq, Repr

/-- A form element of the page, as far as the validator looks into it. -/
structure FormElement where
  /-- The control found by `querySelector('[name="..."]')`, when there is one. -/
  fields : String → Option Field
  /-- Whether the form holds the submit button its handler looks up. -/
  submitButton : Bool

/-- Replace the control found under `fieldName`. -/
def FormElement.setField (element : FormElement) (fieldName : String) (field : Field) :
    FormElement :=
  { element with fields := fun n => if n = fieldName then some field else element.fields n }

/-- An entry of the `forms` map. -/
structure FormData where
  /-- The form element. -/
  element : FormElement
  /-- The declared fields with their rule names, in the order of `Object.keys`. -/
  fields : List (String × List String)
  /-- The submit handler. -/
  onSubmit : Option SubmitHandler

/-- The `forms` map. -/
abbrev Forms := String → Option FormData

/-- The method `initializeForms`: a form is registered when its element is on the page
(`contactForm`, `newsletterForm` are the results of the two `getElementById` calls). -/
def initializeForms (contactForm newsletterForm : Option FormElement) : Forms := fun formName =>
  if formName = "contact" then
    contactForm.map fun element =>
      { element := element
        fields := [("name", ["required", "name"]), ("email", ["required", "email"]),
          ("phone", ["phone"]), ("service", ["required", "service"]),
          ("message", ["required", "message"])]
        onSubmit := some .handleContactSubmit }
  else if formName = "newsletter" then
    newsletterForm.map fun element =>
      { element := element
        fields := [("email", ["required", "email"])]
        onSubmit := some .handleNewsletterSubmit }
  else none

/-- The variables of `validateForm` that its loop updates. -/
structure LoopState where
  /-- The form element, with the controls validated so far. -/
  element : FormElement
  /-- The flag `isFormValid`. -/
  isFormValid : Bool
  /-- The list `invalidFields`. -/
  invalidFields : List String

/-- The loop `Object.keys(formData.fields).forEach(...)` of `validateForm`; `none` when
a `validateField` call raised, which ends the loop and `validateForm` with it (the marking
made up to then is not followed further). -/
def validateFormFields (validators : Registry) :
    List (String × List String) → LoopState → Option LoopState
  | [], st => some st
  | (fieldName, rules) :: rest, st =>
    match st.element.fields fieldName with
    | none => validateFormFields validators rest st
    | some field =>
      let run := validateField validators field rules
      let element := st.element.setField fieldName run.field
      match run.result with
      | none => none
      | some isFieldValid =>
        if ¬ isFieldValid then
          validateFormFields validators rest
            { element := element
              isFormValid := false
              invalidFields := st.invalidFields ++ [fieldName] }
        else
          validateFormFields validators rest { st with element := element }

/-- One run of `validateForm`. -/
structure FormRun where
  /-- The `forms` map afterwards (the controls carry their new marking). -/
  forms : Forms
  /-- The list `invalidFields`. -/
  invalidFields : List String
  /-- The boolean returned, or `none` when an error was raised. -/
  result : Option Bool

/-- The method `validateForm(formName)`. -/
def validateForm (validators : Registry) (forms : Forms) (formName : String) : FormRun :=
  match forms formName with
  | none => { forms := forms, invalidFields := [], result := some false }
  | some formData =>
    match validateFormFields validators formData.fields
        { element := formData.element, isFormValid := true, invalidFields := [] } with
    | none => { forms := forms, invalidFields := [], result := none }
    | some st =>
      { forms := fun n =>
          if n = formName then some { formData with element := st.element } else forms n
        invalidFields := st.invalidFields
        result := some st.isFormValid }

/-! ## Submission -/

/-- The object `this.config`. -/
structure Config where
  retryAttempts : Nat
  retryDelay : Nat
  notificationDuration : Nat
  debugMode : Bool
  deriving DecidableEq, Repr

/-- The configuration set by the constructor. -/
def defaultConfig : Config :=
  { retryAttempts := 3, retryDelay := 1000, notificationDuration := 6000, debugMode := false }

/-- The record posted to the endpoint. -/
structure SubmissionData where
  formType : String
  /-- The entries read from the form (`name`, `email`, ...); `none` for `undefined`. -/
  values : List (String × Option JSString)
  ipAddress : JSString
  userAgent : JSString
  timestamp : JSString
  source : String
  formVersion : String
  deriving DecidableEq, Repr

/-- The parsed JSON body of a reply: an object with `success` (its truthiness) and an
optional `message`. -/
structure ServerReply where
  success : Bool
  message : Option JSString
  deriving DecidableEq, Repr

/-- A response of `fetch`: `ok`, `status`, the body as `text()` gives it and as `json()`
gives it (`error` with the message of the parse error). -/
structure Response where
  ok : Bool
  status : Nat
  text : JSString
  json : Except JSString ServerReply

/-- What one `fetch` call comes to: the promise rejects with an error of the given
message (no connection, CORS failure, abort after the 30 second timer), or resolves. -/
inductive FetchOutcome where
  | rejected (message : JSString)
  | resolved (response : Response)

/-- What the program observes of its surroundings during a submission. -/
structure Env where
  /-- The outcome of the `fetch` of attempt `n`. -/
  post : Nat → FetchOutcome
  /-- The address returned by the IP lookup, `none` when the lookup fails. -/
  ip : Option JSString
  /-- The value `navigator.userAgent`. -/
  userAgent : JSString
  /-- The value `new Date().toISOString()`. -/
  now : JSString

/-- What the program does to its surroundings, in order. -/
inductive Event where
  /-- A submit handler is entered. -/
  | onSubmit (handler : SubmitHandler)
  | showLoadingState
  | hideLoadingState
  /-- The request of `getClientIP`. -/
  | ipLookup
  /-- The `fetch` with method POST of the given attempt. -/
  | post (attempt : Nat) (data : SubmissionData)
  /-- The call `this.delay(ms)`. -/
  | delay (ms : Nat)
  | showNotification (type : String) (message : JSString) (duration : Nat)
  | resetForm
  /-- The call `trackFormSubmission(formType, success, additionalData)`; the additional
  data, when given, is the object with `error` and `type`. -/
  | trackFormSubmission (formType : String) (success : Bool)
      (additionalData : Option (JSString × String))
  | updateFormProgress (progress : Nat)
  /-- The lookup of the first control marked erroneous, focused and scrolled to if found. -/
  | focusFirstError
  /-- The call `addShakeAnimation(form)`. -/
  | shake
  deriving DecidableEq, Repr

/-- The `try` block of `submitWithRetry`: the value returned by one attempt, or the
message of the error it throws. -/
def attemptOnce (outcome : FetchOutcome) : Except JSString ServerReply :=
  match outcome with
  | .rejected message => .error message
  | .resolved response =>
    if ¬ response.ok then
      .error (js "HTTP " ++ natToJS response.status ++ js ": " ++ response.text)
    else
      response.json

/-- The array `noRetryErrors`. -/
def noRetryErrors : List JSString :=
  [js "already subscribed", js "invalid email", js "missing required",
   js "HTTP 400", js "HTTP 401", js "HTTP 403"]

/-- The constant `shouldNotRetry` computed in the `catch` block. -/
def shouldNotRetry (message : JSString) : Bool :=
  noRetryErrors.any fun errorType => includes (toLowerCase message) (toLowerCase errorType)

/-- One run of `submitWithRetry`. -/
structure SubmitResult where
  /-- The attempts and delays made, in order. -/
  events : List Event
  /-- The parsed body returned, or the message of the error thrown. -/
  result : Except JSString ServerReply

/-- The method `submitWithRetry(data, attempt)`. -/
def submitWithRetry (config : Config) (post : Nat → FetchOutcome) (data : SubmissionData)
    (attempt : Nat) : SubmitResult :=
  match attemptOnce (post attempt) with
  | .ok result => { events := [.post attempt data], result := .ok result }
  | .error message =>
    if attempt < config.retryAttempts ∧ ¬ shouldNotRetry message then
      let delay := config.retryDelay * attempt
      let later := submitWithRetry config post data (attempt + 1)
      { events := .post attempt data :: .delay delay :: later.events, result := later.result }
    else
      { events := [.post attempt data], result := .error message }
termination_by config.retryAttempts - attempt
decreasing_by all_goals omega

/-- The variables `errorMessage` and `errorType` of `handleSubmissionError` after its
chain of tests on `errorMsg`, the lower-cased message of the error. -/
def classifyError (errorMsg : JSString) : JSString × String :=
  let errorMessage := js "Sorry, there was an error processing your request. "
  if includes errorMsg (js "already subscribed") then
    (js "This email address is already subscribed to our newsletter. Thank you for your continued interest!",
      "duplicate")
  else if includes errorMsg (js "invalid email") then
    (js "Please check your email address and try again.", "validation")
  else if includes errorMsg (js "cors") || includes errorMsg (js "access-control") then
    (errorMessage ++ js "There's a technical issue with our form system. Please contact us directly at info@sshobanaenterprises.com or call us.",
      "cors")
  else if includes errorMsg (js "failed to fetch") || includes errorMsg (js "network") then
    (errorMessage ++ js "Please check your internet connection and try again.", "network")
  else if includes errorMsg (js "timeout") || includes errorMsg (js "aborted") then
    (errorMessage ++ js "The request timed out. Please try again.", "timeout")
  else if includes errorMsg (js "http 5") then
    (errorMessage ++ js "Our server is temporarily unavailable. Please try again in a few minutes.",
      "server")
  else
    (errorMessage ++ js "Please try again or contact us directly at info@sshobanaenterprises.com",
      "general")

/-- The method `handleSubmissionError(error, formType)`; `message` is `error.message`. -/
def handleSubmissionError (message : JSString) (formType : String) : List Event :=
  let errorMsg := toLowerCase message
  let (errorMessage, errorType) := classifyError errorMsg
  [.showNotification "error" errorMessage 8000,
   .trackFormSubmission formType false (some (errorMsg, errorType))]

/-- The method `getClientIP`: the address looked up, or `Unknown` when the lookup fails. -/
def getClientIP (env : Env) : JSString := env.ip.getD (js "Unknown")

/-- The expression `formData.get(fieldName)?.trim()`. -/
def trimmedEntry (form : FormElement) (fieldName : String) : Option JSString :=
  (form.fields fieldName).map fun field => trim field.value

/-- The expression `response.message || fallback`. -/
def messageOr (message : Option JSString) (fallback : JSString) : JSString :=
  match message with
  | some m => if m = [] then fallback else m
  | none => fallback

/-- A value inside a template literal (`undefined` is rendered by its name). -/
def interpolate (value : Option JSString) : JSString := value.getD (js "undefined")

/-- The result of `formData.get(...)` inside a template literal: the `null` of a control
that the form does not hold is rendered by its name. -/
def interpolateEntry (value : Option JSString) : JSString := value.getD (js "null")

/-- The object `submissionData` built by `handleContactSubmit`. -/
def contactSubmissionData (env : Env) (form : FormElement) : SubmissionData :=
  { formType := "contact"
    values := [("name", trimmedEntry form "name"), ("email", trimmedEntry form "email"),
      ("phone", trimmedEntry form "phone"),
      ("service", (form.fields "service").map fun field => field.value),
      ("message", trimmedEntry form "message")]
    ipAddress := getClientIP env
    userAgent := env.userAgent
    timestamp := env.now
    source := "website"
    formVersion := "2.0" }

/-- The object `submissionData` built by `handleNewsletterSubmit`. -/
def newsletterSubmissionData (env : Env) (form : FormElement) : SubmissionData :=
  { formType := "newsletter"
    values := [("email", trimmedEntry form "email")]
    ipAddress := getClientIP env
    userAgent := env.userAgent
    timestamp := env.now
    source := "website"
    formVersion := "2.0" }

/-- One run of a submit handler. -/
structure HandlerRun where
  /-- What the handler did, in order. -/
  events : List Event
  /-- Whether the handler ended by an error of its own (its promise rejects). -/
  raised : Bool

/-- The method `handleContactSubmit(form)`. -/
def handleContactSubmit (config : Config) (env : Env) (form : FormElement) : HandlerRun :=
  if ¬ form.submitButton then
    { events := [.onSubmit .handleContactSubmit], raised := true }
  else
    let submissionData := contactSubmissionData env form
    let sent := submitWithRetry config env.post submissionData 1
    let after :=
      match sent.result with
      | .ok response =>
        if response.success then
          [.showNotification "success"
              (js "Thank you, " ++ interpolate (trimmedEntry form "name") ++
                js "! Your message has been sent successfully. We have received your inquiry about " ++
                interpolateEntry ((form.fields "service").map fun field => field.value) ++
                js " and will contact you within 24 hours. Please check your email for confirmation.")
              8000,
            .resetForm, .trackFormSubmission "contact" true none, .updateFormProgress 100]
        else
          handleSubmissionError (messageOr response.message (js "Form submission failed")) "contact"
      | .error message => handleSubmissionError message "contact"
    { events := [.onSubmit .handleContactSubmit, .showLoadingState, .ipLookup] ++ sent.events ++
        after ++ [.hideLoadingState]
      raised := false }

/-- The method `handleNewsletterSubmit(form)`. -/
def handleNewsletterSubmit (config : Config) (env : Env) (form : FormElement) : HandlerRun :=
  if ¬ form.submitButton then
    { events := [.onSubmit .handleNewsletterSubmit], raised := true }
  else
    let submissionData := newsletterSubmissionData env form
    let sent := submitWithRetry config env.post submissionData 1
    let after :=
      match sent.result with
      | .ok response =>
        if response.success then
          [.showNotification "success"
              (js "Welcome to our newsletter! Thank you for subscribing with " ++
                interpolate (trimmedEntry form "email") ++
                js ". You will receive updates about our latest projects, construction insights, and special offers. Check your email for a welcome message!")
              8000,
            .resetForm, .trackFormSubmission "newsletter" true none]
        else
          handleSubmissionError (messageOr response.message (js "Newsletter subscription failed"))
            "newsletter"
      | .error message => handleSubmissionError message "newsletter"
    { events := [.onSubmit .handleNewsletterSubmit, .showLoadingState, .ipLookup] ++ sent.events ++
        after ++ [.hideLoadingState]
      raised := false }

/-- The call `formData.onSubmit(formData.element)`. -/
def runHandler (config : Config) (env : Env) (form : FormElement) : SubmitHandler → HandlerRun
  | .handleContactSubmit => handleContactSubmit config env form
  | .handleNewsletterSubmit => handleNewsletterSubmit config env form

/-- One run of `validateAndSubmitForm`, followed to the end of the handler it starts. -/
structure SubmitRun where
  /-- The `forms` map afterwards. -/
  forms : Forms
  /-- What was done, in order. -/
  events : List Event
  /-- Whether `validateAndSubmitForm` itself raised an error. -/
  raised : Bool

/-- The method `validateAndSubmitForm(formName)`. -/
def validateAndSubmitForm (validators : Registry) (config : Config) (env : Env) (forms : Forms)
    (formName : String) : SubmitRun :=
  let validated := validateForm validators forms formName
  match validated.result with
  | none => { forms := validated.forms, events := [], raised := true }
  | some isValid =>
    if isValid then
      match validated.forms formName with
      | none => { forms := validated.forms, events := [], raised := false }
      | some formData =>
        match formData.onSubmit with
        | none => { forms := validated.forms, events := [], raised := false }
        | some handler =>
          { forms := validated.forms
            events := (runHandler config env formData.element handler).events
            raised := false }
    else
      match validated.forms formName with
      | none => { forms := validated.forms, events := [.focusFirstError], raised := true }
      | some _ =>
        { forms := validated.forms
          events := [.focusFirstError, .shake,
            .showNotification "error" (js "Please fix the errors in the form before submitting.") 5000]
          raised := false }

/-- The event is a POST attempt. -/
def Event.isPost : Event → Bool
  | .post _ _ => true
  | _ => false

/-- The event is the entry of a submit handler. -/
def Event.isOnSubmit : Event → Bool
  | .onSubmit _ => true
  | _ => false

/-- The event is a request to show a notification. -/
def Event.isNotification : Event → Bool
  | .showNotification _ _ _ => true
  | _ => false

/-- The event is a request to the network (the IP lookup or a POST attempt). -/
def Event.isNetwork : Event → Bool
  | .post _ _ => true
  | .ipLookup => true
  | _ => false

/-! ## Sample inputs -/

/-- A control as the page first shows it: no marking, an empty and hidden message
element. -/
def freshField (name : String) (value : JSString) : Field :=
  { name := name, value := value, classError := false, classSuccess := false,
    ariaInvalid := none, ariaDescribedby := none, animation := "",
    errorElement := some { textContent := "", shown := false } }

/-- A contact form holding the five declared controls with the given values, and its
submit button. -/
def contactPage (name email phone service message : String) : FormElement :=
  { fields := fun n =>
      if n = "name" then some (freshField "name" (js name))
      else if n = "email" then some (freshField "email" (js email))
      else if n = "phone" then some (freshField "phone" (js phone))
      else if n = "service" then some (freshField "service" (js service))
      else if n = "message" then some (freshField "message" (js message))
      else none
    submitButton := true }

/-- Surroundings in which attempt `n` of a submission meets `post n`. -/
def sampleEnv (post : Nat → FetchOutcome) : Env :=
  { post := post, ip := none, userAgent := js "Mozilla/5.0",
    now := js "2024-01-01T00:00:00.000Z" }

/-- The entry that `initializeForms` registers under `contact` for the given element. -/
def contactData (element : FormElement) : FormData :=
  { element := element
    fields := [("name", ["required", "name"]), ("email", ["required", "email"]),
      ("phone", ["phone"]), ("service", ["required", "service"]),
      ("message", ["required", "message"])]
    onSubmit := some .handleContactSubmit }

/-- A contact form filled in correctly, its optional phone number left empty. -/
def pageWithoutPhone : FormElement :=
  contactPage "John Doe" "john@example.com" "" "Roofing" "Please call me back soon."

/-- A contact form filled in correctly that holds no control named `email`. -/
def pageWithoutEmailControl : FormElement :=
  { pageWithoutPhone with
    fields := fun n => if n = "email" then none else pageWithoutPhone.fields n }

/-- A contact form whose email address is malformed. -/
def pageWithBadEmail : FormElement :=
  contactPage "John Doe" "not-an-email" "" "Roofing" "Please call me back soon."

/-- A reply of status 500 whose body says that the address is already subscribed. -/
def alreadySubscribedResponse : Response :=
  { ok := false
    status := 500
    text := js "Email Already Subscribed"
    json := .error (js "Unexpected token") }

/-- An endpoint that cannot be reached at attempt 1 and then answers that the address is
already subscribed. -/
def unreachableThenSubscribed : Nat → FetchOutcome := fun n =>
  if n = 1 then .rejected (js "Failed to fetch") else .resolved alreadySubscribedResponse

/-- The reply of the scenario: the endpoint answers with status 200 and the body
`{success: false, message: "Invalid email"}`. -/
def invalidEmailResponse : Response :=
  { ok := true
    status := 200
    text := js "\x7b\"success\":false,\"message\":\"Invalid email\"\x7d"
    json := .ok { success := false, message := some (js "Invalid email") } }

/-! ### The classification in the words of the specification -/

/-- The tests of the classifier in their priority order: each row lists the substrings
looked for in the lower-cased message and the tag given when one of them occurs. -/
def classificationOrder : List (List JSString × String) :=
  [([js "already subscribed"], "duplicate"),
   ([js "invalid email"], "validation"),
   ([js "cors", js "access-control"], "cors"),
   ([js "failed to fetch", js "network"], "network"),
   ([js "timeout", js "aborted"], "timeout"),
   ([js "http 5"], "server")]

/-- First match wins: the tag of the first row one of whose substrings occurs in the
lower-cased message, and `general` when no row matches. -/
def firstMatchingTag (errorMsg : JSString) : String :=
  match classificationOrder.find? (fun row => row.1.any (includes errorMsg)) with
  | some row => row.2
  | none => "general"

/-! ## The language of a pattern -/

/-- The strings that a pattern matches, read off its constructs: the meaning that the
matcher `Regex.run` is shown to compute. -/
def Regex.lang : Regex → JSString → Prop
  | .cls p, w => ∃ c, w = [c] ∧ p c = true
  | .seq a b, w => ∃ u v, w = u ++ v ∧ a.lang u ∧ b.lang v
  | .opt a, w => w = [] ∨ a.lang w
  | .star a, w => ∃ ws : List JSString, w = ws.flatten ∧ ∀ x ∈ ws, a.lang x
  | .plus a, w => ∃ ws : List JSString, ws ≠ [] ∧ w = ws.flatten ∧ ∀ x ∈ ws, a.lang x
  | .rep lo hi a, w =>
    ∃ ws : List JSString, lo ≤ ws.length ∧ ws.length ≤ hi ∧ w = ws.flatten ∧ ∀ x ∈ ws, a.lang x

/-! ## The rules in the words of the specification -/

/-- A letter `a`-`z` or `A`-`Z`. -/
def isLetter (c : Nat) : Bool := inRange 'a' 'z' c || inRange 'A' 'Z' c

/-- A digit `0`-`9`. -/
def isDigit (c : Nat) : Bool := inRange '0' '9' c

/-- A separator of the phone rule: a white-space character or a hyphen. -/
def isSeparator (c : Nat) : Bool := isWhiteSpace c || c == 0x2D

/-- Exactly 10 digits of which the first is 6, 7, 8 or 9. -/
def IsMobileNumber (num : JSString) : Prop :=
  num.length = 10 ∧ (∀ c ∈ num, isDigit c = true) ∧ ∃ d rest, num = d :: rest ∧ d ∈ js "6789"

/-- The shape of C12 as claimed: an optional prefix `+91` or `91`, an optional single
separator, then the 10 digits. -/
def ClaimedPhone (s : JSString) : Prop :=
  ∃ pre sep num, s = pre ++ sep ++ num ∧
    (pre = [] ∨ pre = js "+91" ∨ pre = js "91") ∧
    (sep = [] ∨ ∃ c, sep = [c] ∧ isSeparator c = true) ∧
    IsMobileNumber num

/-- The shape the phone pattern has: nothing or the prefix `+91`, the prefix being
followed by at most one separator, then the 10 digits. -/
def AcceptedPhone (s : JSString) : Prop :=
  ∃ pre num, s = pre ++ num ∧
    (pre = [] ∨ pre = js "+91" ∨ ∃ c, isSeparator c = true ∧ pre = js "+91" ++ [c]) ∧
    IsMobileNumber num

/-- A label of the email rule: 1 to 63 characters, letters, digits and hyphens only,
neither the first nor the last being a hyphen. -/
def IsLabel (l : JSString) : Prop :=
  1 ≤ l.length ∧ l.length ≤ 63 ∧
    (∀ c ∈ l, isLetter c = true ∨ isDigit c = true ∨ c = 0x2D) ∧
    l.head? ≠ some 0x2D ∧ l.getLast? ≠ some 0x2D

/-- The labels written one after another with a dot between neighbours. -/
def dotSeparated : List JSString → JSString
  | [] => []
  | [l] => l
  | l :: m :: rest => l ++ 0x2E :: dotSeparated (m :: rest)

/-- The marks allowed in the local part of an address besides letters and digits:
`. ! # $ % & ' * + / = ? ^ _` the backtick `{ | } ~ -`. -/
def localMarks : List Nat :=
  [0x2E, 0x21, 0x23, 0x24, 0x25, 0x26, 0x27, 0x2A, 0x2B, 0x2F, 0x3D, 0x3F, 0x5E, 0x5F, 0x60,
    0x7B, 0x7C, 0x7D, 0x7E, 0x2D]

/-- The shape of C13: a non-empty local part of allowed characters, one `@`, then one or
more labels separated by dots. -/
def IsEmail (s : JSString) : Prop :=
  ∃ localPart labels, s = localPart ++ 0x40 :: dotSeparated labels ∧
    localPart ≠ [] ∧
    (∀ c ∈ localPart, isLetter c = true ∨ isDigit c = true ∨ c ∈ localMarks) ∧
    labels ≠ [] ∧ ∀ l ∈ labels, IsLabel l

/-- The shape of C14, which is also what the message of the name rule says: 2 to 50
characters, each a letter, a space, a dot, a hyphen or an apostrophe. -/
def ClaimedName (s : JSString) : Prop :=
  2 ≤ s.length ∧ s.length ≤ 50 ∧
    ∀ c ∈ s, isLetter c = true ∨ c = 0x20 ∨ c = 0x2E ∨ c = 0x2D ∨ c = 0x27

/-- The shape the name pattern has: 2 to 50 characters, each a letter, a white-space
character, a dot, a hyphen or an apostrophe. -/
def AcceptedName (s : JSString) : Prop :=
  2 ≤ s.length ∧ s.length ≤ 50 ∧
    ∀ c ∈ s, isLetter c = true ∨ isWhiteSpace c = true ∨ c = 0x2E ∨ c = 0x2D ∨ c = 0x27

/-! ## The text shown for a classification tag -/

/-- The text of the notification for each classification tag, as the branches of
`handleSubmissionError` pair them. -/
def notificationTextOfTag (errorType : String) : JSString :=
  if errorType = "duplicate" then
    js "This email address is already subscribed to our newsletter. Thank you for your continued interest!"
  else if errorType = "validation" then
    js "Please check your email address and try again."
  else if errorType = "cors" then
    js "Sorry, there was an error processing your request. There's a technical issue with our form system. Please contact us directly at info@sshobanaenterprises.com or call us."
  else if errorType = "network" then
    js "Sorry, there was an error processing your request. Please check your internet connection and try again."
  else if errorType = "timeout" then
    js "Sorry, there was an error processing your request. The request timed out. Please try again."
  else if errorType = "server" then
    js "Sorry, there was an error processing your request. Our server is temporarily unavailable. Please try again in a few minutes."
  else
    js "Sorry, there was an error processing your request. Please try again or contact us directly at info@sshobanaenterprises.com"

/-! ## The marking of a field -/

/-- The callback of the timer set by `addShakeAnimation`: the animation is reset. -/
def shakeEnded (field : Field) : Field := { field with animation := "" }

/-- The presentation state of a field: the error and success marking, the message element
and the two aria attributes. -/
def Field.presentation (field : Field) :
    Bool × Bool × Option ErrorElement × Option String × Option String :=
  (field.classError, field.classSuccess, field.errorElement, field.ariaInvalid,
    field.ariaDescribedby)

/-- The marking that the loop of `validateField` leaves on a field, by the result it
returns and the message it reports. -/
def markAs (result : Option Bool) (reported : List String) (field : Field) : Field :=
  match result, reported with
  | some true, _ => showFieldSuccess field
  | some false, message :: _ => showFieldError field message
  | _, _ => field

/-! ## The history of submissions -/

/-- An object of the stored history as `trackFormSubmission` writes it. -/
structure HistoryRecord where
  type : String
  success : Bool
  timestamp : JSString
  /-- The property `error`, present when the additional data carries it. -/
  error : Option JSString
  deriving DecidableEq, Repr

/-- An element of the stored array: a record, or any other JSON value kept as its text. -/
inductive HistoryItem where
  | record (r : HistoryRecord)
  | foreign (json : JSString)
  deriving DecidableEq, Repr

/-- What `localStorage.getItem('formSubmissions')` holds, by what `JSON.parse` makes of it. -/
inductive Stored where
  /-- No item under the key (`null`). -/
  | absent
  /-- The empty string. -/
  | empty
  /-- A text that parses to an array. -/
  | array (items : List HistoryItem)
  /-- A text that parses to a value that is not an array, so that `push` cannot be called. -/
  | notArray (text : JSString)
  /-- A text that `JSON.parse` rejects. -/
  | corrupt (text : JSString)
  deriving DecidableEq, Repr

/-- The object literal `{type: formType, success, timestamp, ...additionalData}`: the
properties spread from the additional data (`error`, `type`) come last, so its `type`
replaces the one written first. -/
def newHistoryRecord (now : JSString) (formType : String) (success : Bool)
    (additionalData : Option (JSString × String)) : HistoryRecord :=
  { type :=
      match additionalData with
      | some (_, errorType) => errorType
      | none => formType
    success := success
    timestamp := now
    error := additionalData.map Prod.fst }

/-- The call `submissions.slice(-50)`: the last 50 elements. -/
def sliceLast50 (submissions : List HistoryItem) : List HistoryItem :=
  submissions.drop (submissions.length - 50)

/-- The `try` block of `trackFormSubmission`, as its effect on the stored item; a text
that is not an array raises inside the block, the `catch` logs a warning and the item is
left as it was. -/
def trackFormSubmission (now : JSString) (stored : Stored) (formType : String) (success : Bool)
    (additionalData : Option (JSString × String)) : Stored :=
  let entry := HistoryItem.record (newHistoryRecord now formType success additionalData)
  match stored with
  | .absent => .array (sliceLast50 ([] ++ [entry]))
  | .empty => .array (sliceLast50 ([] ++ [entry]))
  | .array submissions => .array (sliceLast50 (submissions ++ [entry]))
  | .notArray text => .notArray text
  | .corrupt text => .corrupt text

/-- A stored history of 50 entries. -/
def fullHistory : List HistoryItem :=
  (List.range 50).map fun n => .foreign (natToJS n)

/-! ## Statistics over the history -/

/-- The counters kept for one key of `byType`. -/
structure TypeStatistics where
  total : Nat
  successful : Nat
  failed : Nat
  deriving DecidableEq, Repr

/-- The object returned by `getFormStatistics`; `byType` lists its own keys in the order
in which they were created. -/
structure FormStatistics where
  total : Nat
  successful : Nat
  failed : Nat
  byType : List (String × TypeStatistics)
  deriving DecidableEq, Repr

/-- What the statistics read of an element of the stored array: its `type` as a key and
the truthiness of its `success`, or `none` when reading them raises (the element is
`null`). For an element that is not a record the reading is given by `readForeign`. -/
def itemView (readForeign : JSString → Option (String × Bool)) :
    HistoryItem → Option (String × Bool)
  | .record r => some (r.type, r.success)
  | .foreign json => readForeign json

/-- The body of the loop `submissions.forEach(...)` of `getFormStatistics`: the group of
the type is created when it is missing, then its counters are raised. The types met are
taken to be other than the property names that every object inherits. -/
def countByType (byType : List (String × TypeStatistics)) (submission : String × Bool) :
    List (String × TypeStatistics) :=
  let created :=
    if byType.any (fun group => group.1 == submission.1) then byType
    else byType ++ [(submission.1, { total := 0, successful := 0, failed := 0 })]
  created.map fun group =>
    if group.1 = submission.1 then
      (group.1,
        { total := group.2.total + 1
          successful := if submission.2 then group.2.successful + 1 else group.2.successful
          failed := if submission.2 then group.2.failed else group.2.failed + 1 })
    else group

/-- The statistics of an array whose elements have been read. -/
def statisticsOf (submissions : List (String × Bool)) : FormStatistics :=
  { total := submissions.length
    successful := (submissions.filter fun s => s.2).length
    failed := (submissions.filter fun s => !s.2).length
    byType := submissions.foldl countByType [] }

/-- The method `getFormStatistics`; `none` is the `null` returned by its `catch`. -/
def getFormStatistics (readForeign : JSString → Option (String × Bool)) (stored : Stored) :
    Option FormStatistics :=
  match stored with
  | .absent => some (statisticsOf [])
  | .empty => some (statisticsOf [])
  | .array items => (items.mapM (itemView readForeign)).map statisticsOf
  | .notArray _ => none
  | .corrupt _ => none

/-- The stored item after the calls of `trackFormSubmission` among the events, each made
at the time `now`. -/
def recordTracking (now : JSString) (stored : Stored) : List Event → Stored
  | [] => stored
  | .trackFormSubmission formType success additionalData :: rest =>
    recordTracking now (trackFormSubmission now stored formType success additionalData) rest
  | _ :: rest => recordTracking now stored rest

/-! ## The connectivity probe -/

/-- The method `showSystemNotification`: outside debug mode only errors are shown. -/
def showSystemNotification (config : Config) (type : String) (message : JSString)
    (duration : Nat) : List Event :=
  if ¬ config.debugMode ∧ type ≠ "error" then []
  else [.showNotification type message duration]

/-- The `try` block of `testConnection`: the notifications it requests, or the message of
the error raised inside it (by `fetch` or by `response.json()`). -/
def testConnectionTry (config : Config) (probe : FetchOutcome) : Except JSString (List Event) :=
  match probe with
  | .rejected message => .error message
  | .resolved response =>
    if response.ok then
      match response.json with
      | .ok _ =>
        .ok (showSystemNotification config "success"
          (js "Form system connected successfully!") 3000)
      | .error message => .error message
    else
      .ok (showSystemNotification config "warning"
        (js "Form system connection warning - please check if issues persist") 4000)

/-- The method `testConnection`: its `catch` block turns every error of the `try` block
into a warning in the console and, in debug mode, a notification. -/
def testConnection (config : Config) (probe : FetchOutcome) : HandlerRun :=
  match testConnectionTry config probe with
  | .ok events => { events := events, raised := false }
  | .error _ =>
    { events :=
        if config.debugMode then
          showSystemNotification config "error"
            (js "Connection test failed - forms may still work") 4000
        else []
      raised := false }

/-! ## Notifications on the page -/

/-- The inline `transform` of a notification: `translateX(100%)` keeps it out of view,
`translateX(0)` brings it into view. -/
inductive Transform where
  | offscreen
  | onscreen
  deriving DecidableEq, Repr

/-- An element of class `form-notification` attached to the document. -/
structure NotificationElement where
  /-- Which call of `showNotification` created it. -/
  id : Nat
  type : String
  message : JSString
  transform : Transform
  /-- Whether `hideNotification` has been called on it: its dismissal has begun. -/
  dismissed : Bool
  deriving DecidableEq, Repr

/-- The callbacks handed to `setTimeout` by `showNotification` and `hideNotification`. -/
inductive TimerAction where
  /-- The entry: `transform = 'translateX(0)'`, 100 after the creation. -/
  | enter (id : Nat)
  /-- The automatic dismissal: `hideNotification(notification)`, `duration` after the
  creation. -/
  | autoRemove (id : Nat)
  /-- The removal from the page, 300 after `hideNotification`. -/
  | remove (id : Nat)
  /-- The registration of the click handler on the document, 1000 after the creation. -/
  | listen (id : Nat)
  deriving DecidableEq, Repr

/-- A pending timer. -/
structure Timer where
  /-- The identifier returned by `setTimeout`; later timers get greater ones. -/
  handle : Nat
  /-- The time at which it is due. -/
  due : Nat
  action : TimerAction
  deriving DecidableEq, Repr

/-- The page as far as notifications go. -/
structure Page where
  /-- The current time. -/
  now : Nat
  /-- The notification elements attached to the document, in document order. -/
  body : List NotificationElement
  /-- The pending timers. -/
  timers : List Timer
  /-- The notifications whose `outsideClickHandler` is registered on the document. -/
  listeners : List Nat
  nextId : Nat
  nextHandle : Nat
  deriving DecidableEq, Repr

/-- The page before any notification. -/
def Page.initial : Page :=
  { now := 0, body := [], timers := [], listeners := [], nextId := 0, nextHandle := 0 }

/-- The method `hideNotification`: the element is sent out of view and its removal is
scheduled 300 later (an element already removed from the page is not in `body`). -/
def Page.hideNotification (p : Page) (id : Nat) : Page :=
  { p with
    body := p.body.map fun n =>
      if n.id = id then { n with transform := .offscreen, dismissed := true } else n
    timers := p.timers ++ [{ handle := p.nextHandle, due := p.now + 300, action := .remove id }]
    nextHandle := p.nextHandle + 1 }

/-- The method `showNotification`: every notification found in the page is hidden, then
the new element is appended and its three timers are set. -/
def Page.showNotification (p : Page) (type : String) (message : JSString) (duration : Nat) :
    Page :=
  let hidden := p.body.foldl (fun q n => q.hideNotification n.id) p
  { hidden with
    body := hidden.body ++
      [{ id := hidden.nextId, type := type, message := message, transform := .offscreen,
         dismissed := false }]
    timers := hidden.timers ++
      [{ handle := hidden.nextHandle, due := hidden.now + 100, action := .enter hidden.nextId },
       { handle := hidden.nextHandle + 1, due := hidden.now + duration,
         action := .autoRemove hidden.nextId },
       { handle := hidden.nextHandle + 2, due := hidden.now + 1000,
         action := .listen hidden.nextId }]
    nextId := hidden.nextId + 1
    nextHandle := hidden.nextHandle + 3 }

/-- The call `clearTimeout(autoRemove)` of the handlers of notification `id`. -/
def Page.clearAutoRemove (p : Page) (id : Nat) : Page :=
  { p with timers := p.timers.filter fun t => t.action != .autoRemove id }

/-- The callback of a timer. -/
def Page.callback (p : Page) : TimerAction → Page
  | .enter id =>
    { p with body := p.body.map fun n => if n.id = id then { n with transform := .onscreen } else n }
  | .autoRemove id => p.hideNotification id
  | .remove id => { p with body := p.body.filter fun n => n.id != id }
  | .listen id => { p with listeners := p.listeners ++ [id] }

/-- Of two timers the one that fires first: the earlier due, and among timers due at the
same time the one set first. -/
def Timer.first (a b : Timer) : Timer :=
  if b.due < a.due ∨ (b.due = a.due ∧ b.handle < a.handle) then b else a

/-- The pending timer that fires next. -/
def Page.nextTimer (p : Page) : Option Timer :=
  match p.timers with
  | [] => none
  | t :: rest => some (rest.foldl Timer.first t)

/-- The next pending timer fires: the clock reaches its due time and its callback runs. -/
def Page.fireNext (p : Page) : Page :=
  match p.nextTimer with
  | none => p
  | some t =>
    Page.callback
      { p with now := max p.now t.due, timers := p.timers.filter fun u => u.handle != t.handle }
      t.action

/-- A click reaches the document: each registered `outsideClickHandler` whose notification
does not contain the target (`target` is the notification clicked in, if any) clears the
automatic dismissal, hides its notification and unregisters itself. -/
def Page.clickDocument (p : Page) (target : Option Nat) : Page :=
  p.listeners.foldl
    (fun q id =>
      if target = some id then q
      else
        { (q.clearAutoRemove id).hideNotification id with
          listeners := q.listeners.filter fun l => l != id })
    p

/-- A click on the close button of notification `id`, which then reaches the document;
nothing happens when the notification is no longer in the page. -/
def Page.clickClose (p : Page) (id : Nat) : Page :=
  if p.body.any (fun n => n.id == id) then
    ((p.clearAutoRemove id).hideNotification id).clickDocument (some id)
  else p

/-- What happens to the page: a call of `showNotification`, the firing of the next timer,
or a click, the calls and clicks each at a given time. -/
inductive Input where
  | show (time : Nat) (type : String) (message : JSString) (duration : Nat)
  | fireNext
  | clickClose (time : Nat) (id : Nat)
  | clickDocument (time : Nat) (target : Option Nat)
  deriving DecidableEq, Repr

/-- The page with its clock advanced to `time`. -/
def Page.advance (p : Page) (time : Nat) : Page := { p with now := max p.now time }

/-- The effect of one input. -/
def Page.step (p : Page) : Input → Page
  | .show time type message duration => (p.advance time).showNotification type message duration
  | .fireNext => p.fireNext
  | .clickClose time id => (p.advance time).clickClose id
  | .clickDocument time target => (p.advance time).clickDocument target

/-- An input comes at its time: a call or click is not in the past and no pending timer
is due before it. -/
def Page.timely (p : Page) : Input → Bool
  | .show time _ _ _ => decide (p.now ≤ time) && p.timers.all fun t => decide (time ≤ t.due)
  | .fireNext => true
  | .clickClose time _ => decide (p.now ≤ time) && p.timers.all fun t => decide (time ≤ t.due)
  | .clickDocument time _ => decide (p.now ≤ time) && p.timers.all fun t => decide (time ≤ t.due)

/-- The page after a list of inputs. -/
def Page.run (p : Page) : List Input → Page
  | [] => p
  | input :: rest => (p.step input).run rest

/-- Every input of the list comes at its time. -/
def Page.timelyRun (p : Page) : List Input → Bool
  | [] => true
  | input :: rest => p.timely input && (p.step input).timelyRun rest

/-- The notifications of the page whose dismissal has not begun. -/
def Page.active (p : Page) : List NotificationElement := p.body.filter fun n => !n.dismissed

/-- A first notification, then a second one 2 seconds later, the two timers due in
between having fired. -/
def twoNotifications : List Input :=
  [.show 0 "error" (js "Please fix the errors in the form before submitting.") 5000,
   .fireNext, .fireNext,
   .show 2000 "success" (js "Form system connected successfully!") 3000]

/-- A first notification, a second one 50 later, then the next timer: the entry of the
first notification, due at 100. -/
def evictedBeforeEntry : List Input :=
  [.show 0 "error" (js "Please fix the errors in the form before submitting.") 5000,
   .show 50 "success" (js "Form system connected successfully!") 3000,
   .fireNext]

/-- The constructor's configuration with debug mode switched on (`enableDebugMode`). -/
def debugConfig : Config := { defaultConfig with debugMode := true }

/-- An endpoint that cannot be reached at attempt 1 and accepts the submission at
attempt 2. -/
def unreachableThenAccepted : Nat → FetchOutcome := fun n =>
  if n = 1 then .rejected (js "Failed to fetch")
  else .resolved
    { ok := true, status := 200, text := js "",
      json := .ok { success := true, message := some (js "Saved") } }

/-! ## Properties -/

/-- The loop of `validateField` returns `true` exactly when every rule is registered and
accepts the value. -/
theorem runValidators_true_iff (validators : Registry) (value : JSString) (field : Field)
    (rules : List String) :
    (runValidators validators value field rules).result = some true ↔
      ∀ r ∈ rules, ruleAccepts validators value r = true := by
  induction rules with
  | nil => simp [runValidators]
  | cons r rest ih =>
    have hacc : ruleAccepts validators value r =
        (match validators r with
          | some validator => validator.accepts value
          | none => false) := rfl
    simp only [runValidators, List.forall_mem_cons, hacc]
    cases hv : validators r with
    | none => simp
    | some validator =>
      by_cases ha : validator.accepts value = true
      · simp [ha, ih]
      · simp [ha]

/-- The optional-field branch of `validateField`. -/
theorem validateField_of_optional (validators : Registry) (field : Field) (rules : List String)
    (hempty : trim field.value = []) (hreq : "required" ∉ rules) :
    validateField validators field rules =
      { field := clearFieldError field, evaluated := [], reported := [], result := some true } := by
  have h : trim field.value = [] ∧ ¬ (rules.contains "required") = true := by
    simpa using And.intro hempty hreq
  unfold validateField
  exact if_pos h

/-- Outside the optional-field branch `validateField` is its loop over the rules. -/
theorem validateField_of_checked (validators : Registry) (field : Field) (rules : List String)
    (hc : ¬ (trim field.value = [] ∧ "required" ∉ rules)) :
    validateField validators field rules =
      runValidators validators (trim field.value) (clearFieldError field) rules := by
  have h : ¬ (trim field.value = [] ∧ ¬ (rules.contains "required") = true) := by
    simpa using hc
  unfold validateField
  exact if_neg h

/-- C1 (as stated) fails: with the rule list `["phone"]` and an empty value the field is
valid, although the phone rule rejects the empty string. -/
theorem validateField_claimed_iff_fails :
    ¬ ((validateField setupValidators (freshField "phone" (js "")) ["phone"]).result = some true ↔
        ((trim (freshField "phone" (js "")).value ≠ [] ∨ "required" ∉ ["phone"]) ∧
          ∀ r ∈ ["phone"],
            ruleAccepts setupValidators (trim (freshField "phone" (js "")).value) r = true)) := by
  decide

/-- C1 (amended): `validateField` returns valid if and only if the trimmed value is empty
and the rule list does not contain "required", or every rule of the list accepts the
trimmed value. -/
theorem validateField_valid_iff (validators : Registry) (field : Field) (rules : List String) :
    (validateField validators field rules).result = some true ↔
      ((trim field.value = [] ∧ "required" ∉ rules) ∨
        ∀ r ∈ rules, ruleAccepts validators (trim field.value) r = true) := by
  by_cases h : trim field.value = [] ∧ "required" ∉ rules
  · rw [validateField_of_optional validators field rules h.1 h.2]
    simp [h]
  · rw [validateField_of_checked validators field rules h, runValidators_true_iff]
    simp [h]

/-- C2: for a rule list without "required" and a value that is empty once trimmed,
`validateField` returns valid, evaluates no rule and reports no message. -/
theorem validateField_optional_empty (validators : Registry) (field : Field)
    (rules : List String) (hreq : "required" ∉ rules) (hempty : trim field.value = []) :
    (validateField validators field rules).result = some true ∧
      (validateField validators field rules).evaluated = [] ∧
      (validateField validators field rules).reported = [] ∧
      (validateField validators field rules).field = clearFieldError field := by
  rw [validateField_of_optional validators field rules hempty hreq]
  exact ⟨rfl, rfl, rfl, rfl⟩

/-- Witness of C2: a blank phone value under the rules `["phone", "email"]`. -/
theorem validateField_optional_empty_witness :
    (validateField setupValidators (freshField "phone" (js "  ")) ["phone", "email"]).result
        = some true ∧
      (validateField setupValidators (freshField "phone" (js "  ")) ["phone", "email"]).evaluated
        = [] ∧
      (validateField setupValidators (freshField "phone" (js "  ")) ["phone", "email"]).reported
        = [] ∧
      (validateField setupValidators (freshField "phone" (js "  ")) ["phone", "email"]).field
        = clearFieldError (freshField "phone" (js "  ")) :=
  validateField_optional_empty setupValidators (freshField "phone" (js "  ")) ["phone", "email"]
    (by decide) (by decide)

/-- When the loop of `validateField` returns `false`, it stopped at the first rule that
rejects the value, and reported that rule's message only. -/
theorem runValidators_false (validators : Registry) (value : JSString) (field : Field)
    (rules : List String)
    (h : (runValidators validators value field rules).result = some false) :
    ∃ passed ruleName validator skipped,
      rules = passed ++ ruleName :: skipped ∧
      (∀ r ∈ passed, ruleAccepts validators value r = true) ∧
      validators ruleName = some validator ∧
      validator.accepts value = false ∧
      (runValidators validators value field rules).reported = [validator.message] ∧
      (runValidators validators value field rules).evaluated = passed ++ [ruleName] := by
  induction rules with
  | nil => simp [runValidators] at h
  | cons r rest ih =>
    simp only [runValidators] at h ⊢
    cases hv : validators r with
    | none => simp [hv] at h
    | some validator =>
      simp only [hv] at h ⊢
      by_cases ha : validator.accepts value = true
      · simp only [ha, if_true] at h ⊢
        obtain ⟨passed, ruleName, val, skipped, hsplit, hpass, hreg, hrej, hrep, hev⟩ := ih h
        refine ⟨r :: passed, ruleName, val, skipped, ?_, ?_, hreg, hrej, hrep, ?_⟩
        · simp [hsplit]
        · intro x hx
          rcases List.mem_cons.mp hx with rfl | hx
          · simp [ruleAccepts, hv, ha]
          · exact hpass x hx
        · simp [hev]
      · have ha2 : validator.accepts value = false := by simpa using ha
        exact ⟨[], r, validator, rest, by simp, by simp, hv, ha2, by simp [ha2], by simp [ha2]⟩

/-- C3: whenever `validateField` returns invalid, the one message it reports is the
message of the first rule of the list that rejects the trimmed value, and the rules
evaluated are exactly those up to and including that rule. -/
theorem validateField_invalid_first_failure (validators : Registry) (field : Field)
    (rules : List String)
    (h : (validateField validators field rules).result = some false) :
    ∃ passed ruleName validator skipped,
      rules = passed ++ ruleName :: skipped ∧
      (∀ r ∈ passed, ruleAccepts validators (trim field.value) r = true) ∧
      validators ruleName = some validator ∧
      validator.accepts (trim field.value) = false ∧
      (validateField validators field rules).reported = [validator.message] ∧
      (validateField validators field rules).evaluated = passed ++ [ruleName] := by
  by_cases hc : trim field.value = [] ∧ "required" ∉ rules
  · rw [validateField_of_optional validators field rules hc.1 hc.2] at h
    simp at h
  · rw [validateField_of_checked validators field rules hc] at h ⊢
    exact runValidators_false validators (trim field.value) (clearFieldError field) rules h

/-- Witness of C3: the value `ab1` under `["required", "name", "email"]` stops at `name`. -/
theorem validateField_invalid_first_failure_witness :
    ∃ passed ruleName validator skipped,
      ["required", "name", "email"] = passed ++ ruleName :: skipped ∧
      (∀ r ∈ passed,
        ruleAccepts setupValidators (trim (freshField "name" (js "ab1")).value) r = true) ∧
      setupValidators ruleName = some validator ∧
      validator.accepts (trim (freshField "name" (js "ab1")).value) = false ∧
      (validateField setupValidators (freshField "name" (js "ab1"))
        ["required", "name", "email"]).reported = [validator.message] ∧
      (validateField setupValidators (freshField "name" (js "ab1"))
        ["required", "name", "email"]).evaluated = passed ++ [ruleName] :=
  validateField_invalid_first_failure setupValidators (freshField "name" (js "ab1"))
    ["required", "name", "email"] (by decide)

/-! ### Form validation -/

/-- The result of the loop of `validateField` does not depend on the marking of the field. -/
theorem runValidators_result_congr (validators : Registry) (value : JSString)
    (f g : Field) (rules : List String) :
    (runValidators validators value f rules).result =
      (runValidators validators value g rules).result := by
  induction rules with
  | nil => rfl
  | cons r rest ih =>
    simp only [runValidators]
    cases validators r with
    | none => rfl
    | some validator =>
      by_cases ha : validator.accepts value = true
      · simpa [ha] using ih
      · simp [ha]

/-- The result of `validateField` depends on the value of the field only. -/
theorem validateField_result_congr (validators : Registry) (f g : Field) (rules : List String)
    (h : f.value = g.value) :
    (validateField validators f rules).result = (validateField validators g rules).result := by
  by_cases hc : trim f.value = [] ∧ "required" ∉ rules
  · rw [validateField_of_optional validators f rules hc.1 hc.2,
      validateField_of_optional validators g rules (h ▸ hc.1) hc.2]
  · rw [validateField_of_checked validators f rules hc,
      validateField_of_checked validators g rules (h ▸ hc), h]
    exact runValidators_result_congr validators _ _ _ rules

/-- The loop of `validateField` leaves the value of the field as it is. -/
theorem runValidators_value (validators : Registry) (value : JSString) (f : Field)
    (rules : List String) : (runValidators validators value f rules).field.value = f.value := by
  induction rules with
  | nil => rfl
  | cons r rest ih =>
    simp only [runValidators]
    cases validators r with
    | none => rfl
    | some validator =>
      by_cases ha : validator.accepts value = true
      · simpa [ha] using ih
      · simp [ha, showFieldError]

/-- The method `validateField` leaves the value of the field as it is. -/
theorem validateField_value (validators : Registry) (f : Field) (rules : List String) :
    (validateField validators f rules).field.value = f.value := by
  by_cases hc : trim f.value = [] ∧ "required" ∉ rules
  · rw [validateField_of_optional validators f rules hc.1 hc.2]
    rfl
  · rw [validateField_of_checked validators f rules hc, runValidators_value]
    rfl

/-- The loop of `validateForm` ends with `isFormValid` set exactly when it was set before
and every remaining declared field that the form holds passes `validateField`. The
controls of `original` may differ from the current ones in their marking only. -/
theorem validateFormFields_valid_iff (validators : Registry) (original : FormElement)
    (fields : List (String × List String)) (st : LoopState)
    (hsame : ∀ n, (st.element.fields n).map Field.value = (original.fields n).map Field.value) :
    (validateFormFields validators fields st).map LoopState.isFormValid = some true ↔
      (st.isFormValid = true ∧
        ∀ entry ∈ fields, ∀ field, original.fields entry.1 = some field →
          (validateField validators field entry.2).result = some true) := by
  induction fields generalizing st with
  | nil => simp [validateFormFields]
  | cons entry rest ih =>
    obtain ⟨fieldName, rules⟩ := entry
    simp only [validateFormFields, List.forall_mem_cons]
    have hn := hsame fieldName
    cases hcur : st.element.fields fieldName with
    | none =>
      rw [hcur] at hn
      have horig : original.fields fieldName = none := by
        cases ho : original.fields fieldName with
        | none => rfl
        | some f => rw [ho] at hn; simp at hn
      simp only [horig]
      rw [ih st hsame]
      simp
    | some field =>
      rw [hcur] at hn
      obtain ⟨f0, hf0, hval⟩ : ∃ f0, original.fields fieldName = some f0 ∧ f0.value = field.value := by
        cases ho : original.fields fieldName with
        | none => rw [ho] at hn; simp at hn
        | some f => rw [ho] at hn; exact ⟨f, rfl, by simpa using hn.symm⟩
      have hres := validateField_result_congr validators f0 field rules hval
      have hsame2 : ∀ n,
          ((st.element.setField fieldName (validateField validators field rules).field).fields n).map
            Field.value = (original.fields n).map Field.value := by
        intro n
        by_cases hnn : n = fieldName
        · subst hnn
          simp [FormElement.setField, hf0, validateField_value, hval]
        · simp [FormElement.setField, hnn, hsame n]
      simp only [hf0, Option.some.injEq, forall_eq']
      rw [hres]
      cases hr : (validateField validators field rules).result with
      | none => simp
      | some b =>
        cases b with
        | true =>
          have hstep := ih
            { st with
              element := st.element.setField fieldName (validateField validators field rules).field }
            hsame2
          simp only [not_true_eq_false, if_false]
          rw [hstep]
          simp
        | false =>
          have hstep := ih
            { element := st.element.setField fieldName (validateField validators field rules).field
              isFormValid := false
              invalidFields := st.invalidFields ++ [fieldName] }
            hsame2
          simp only [Bool.false_eq_true, not_false_eq_true, if_true]
          rw [hstep]
          simp

/-- The method `validateForm` returns `true` exactly when every declared field that the
form holds passes `validateField`. -/
theorem validateForm_result_true_iff (validators : Registry) (forms : Forms) (formName : String)
    (formData : FormData) (hform : forms formName = some formData) :
    (validateForm validators forms formName).result = some true ↔
      ∀ entry ∈ formData.fields, ∀ field, formData.element.fields entry.1 = some field →
        (validateField validators field entry.2).result = some true := by
  have hloop := validateFormFields_valid_iff validators formData.element formData.fields
    { element := formData.element, isFormValid := true, invalidFields := [] } (fun _ => rfl)
  simp only [true_and] at hloop
  rw [← hloop]
  simp only [validateForm, hform]
  cases validateFormFields validators formData.fields
      { element := formData.element, isFormValid := true, invalidFields := [] } with
  | none => simp
  | some st => simp

/-- C4 (as stated) fails: a contact form without a control named `email` is registered
and `validateForm` returns `true` on it, although the declared field `email` passes no
call of `validateField`: the form holds no such field. -/
theorem validateForm_claimed_iff_fails :
    ¬ ((validateForm setupValidators (initializeForms (some pageWithoutEmailControl) none)
          "contact").result = some true ↔
        ∀ entry ∈ (contactData pageWithoutEmailControl).fields,
          ∃ field, pageWithoutEmailControl.fields entry.1 = some field ∧
            (validateField setupValidators field entry.2).result = some true) := by
  intro h
  obtain ⟨field, hfield, _⟩ := h.mp (by decide) ("email", ["required", "email"]) (by decide)
  have hnone : pageWithoutEmailControl.fields "email" = none := rfl
  rw [hnone] at hfield
  cases hfield

/-- C4 (amended): for every registered form and every state of its element, `validateForm`
returns `true` if and only if every field declared in the descriptor that is found in the
form passes `validateField` with its rule list; a declared field without a control is
skipped. -/
theorem validateForm_true_iff_found (validators : Registry) (forms : Forms) (formName : String)
    (formData : FormData) (hform : forms formName = some formData) :
    (validateForm validators forms formName).result = some true ↔
      ∀ entry ∈ formData.fields, ∀ field, formData.element.fields entry.1 = some field →
        (validateField validators field entry.2).result = some true :=
  validateForm_result_true_iff validators forms formName formData hform

/-- Witness of C4: the contact form without a control named `email`. -/
theorem validateForm_true_iff_found_witness :
    initializeForms (some pageWithoutEmailControl) none "contact"
        = some (contactData pageWithoutEmailControl) ∧
    ((validateForm setupValidators (initializeForms (some pageWithoutEmailControl) none)
        "contact").result = some true ↔
      ∀ entry ∈ (contactData pageWithoutEmailControl).fields,
        ∀ field, (contactData pageWithoutEmailControl).element.fields entry.1 = some field →
          (validateField setupValidators field entry.2).result = some true) :=
  ⟨rfl,
    validateForm_true_iff_found setupValidators
      (initializeForms (some pageWithoutEmailControl) none) "contact"
      (contactData pageWithoutEmailControl) rfl⟩

/-- When every declared field has its control in the form, `validateForm` returns `true`
if and only if every declared field passes `validateField` with its rule list. -/
theorem validateForm_true_iff_of_present (validators : Registry) (forms : Forms)
    (formName : String) (formData : FormData) (hform : forms formName = some formData)
    (hpresent : ∀ entry ∈ formData.fields, (formData.element.fields entry.1).isSome = true) :
    (validateForm validators forms formName).result = some true ↔
      ∀ entry ∈ formData.fields, ∃ field, formData.element.fields entry.1 = some field ∧
        (validateField validators field entry.2).result = some true := by
  rw [validateForm_result_true_iff validators forms formName formData hform]
  constructor
  · intro h entry hmem
    obtain ⟨field, hfield⟩ := Option.isSome_iff_exists.mp (hpresent entry hmem)
    exact ⟨field, hfield, h entry hmem field hfield⟩
  · intro h entry hmem field hfield
    obtain ⟨g, hg, hres⟩ := h entry hmem
    rw [hfield] at hg
    cases hg
    exact hres

/-! ### The gate before submission -/

/-- Every submit handler begins by the event of its entry. -/
theorem runHandler_events_ne_nil (config : Config) (env : Env) (form : FormElement)
    (handler : SubmitHandler) :
    (runHandler config env form handler).events.any Event.isOnSubmit = true := by
  cases handler <;>
    by_cases hb : form.submitButton = true <;>
    simp [runHandler, handleContactSubmit, handleNewsletterSubmit, hb, Event.isOnSubmit]

/-- Unless `validateForm` returns `true`, `validateAndSubmitForm` enters no submit handler
and makes no request to the network. -/
theorem validateAndSubmitForm_blocked (validators : Registry) (config : Config) (env : Env)
    (forms : Forms) (formName : String)
    (h : (validateForm validators forms formName).result ≠ some true) :
    (validateAndSubmitForm validators config env forms formName).events.any Event.isOnSubmit
        = false ∧
      (validateAndSubmitForm validators config env forms formName).events.any Event.isNetwork
        = false := by
  unfold validateAndSubmitForm
  cases hr : (validateForm validators forms formName).result with
  | none => simp [hr]
  | some b =>
    cases b with
    | true => exact absurd hr h
    | false =>
      cases hf : (validateForm validators forms formName).forms formName <;>
        simp [hr, hf, Event.isOnSubmit, Event.isNetwork]

/-- C5 (as stated) fails: the contact form with its optional phone number left empty is
submitted (its handler is entered), although the phone rule bound to
the declared field `phone` was not evaluated and rejects the field's value. -/
theorem validateAndSubmitForm_claimed_gate_fails :
    ((validateAndSubmitForm setupValidators defaultConfig
        (sampleEnv fun _ => .rejected (js "Failed to fetch"))
        (initializeForms (some pageWithoutPhone) none) "contact").events.any Event.isOnSubmit
        = true) ∧
      initializeForms (some pageWithoutPhone) none "contact" = some (contactData pageWithoutPhone) ∧
      ("phone", ["phone"]) ∈ (contactData pageWithoutPhone).fields ∧
      pageWithoutPhone.fields "phone" = some (freshField "phone" (js "")) ∧
      "phone" ∉ (validateField setupValidators (freshField "phone" (js "")) ["phone"]).evaluated ∧
      ruleAccepts setupValidators (trim (freshField "phone" (js "")).value) "phone" = false := by
  refine ⟨?_, rfl, by decide, rfl, by decide, by decide⟩
  have hvalid : (validateForm setupValidators (initializeForms (some pageWithoutPhone) none)
      "contact").result = some true := by decide
  have hforms : ((validateForm setupValidators (initializeForms (some pageWithoutPhone) none)
      "contact").forms "contact").map FormData.onSubmit = some (some .handleContactSubmit) := by
    decide
  unfold validateAndSubmitForm
  simp only [hvalid, if_true]
  cases hf : (validateForm setupValidators (initializeForms (some pageWithoutPhone) none)
      "contact").forms "contact" with
  | none => rw [hf] at hforms; simp at hforms
  | some formData =>
    rw [hf] at hforms
    have hh : formData.onSubmit = some .handleContactSubmit := by simpa using hforms
    simp only [hh]
    exact runHandler_events_ne_nil _ _ _ _

/-- C5 (amended): `validateAndSubmitForm` enters a submit handler or reaches the network
only when `validateForm` returned `true`, that is when every declared field that the form
holds passed `validateField`; and whenever some declared field fails `validateField`, no
submit handler is entered and no request is made to the network. -/
theorem validateAndSubmitForm_gate (validators : Registry) (config : Config) (env : Env)
    (forms : Forms) (formName : String) :
    (((validateAndSubmitForm validators config env forms formName).events.any Event.isOnSubmit
          = true ∨
        (validateAndSubmitForm validators config env forms formName).events.any Event.isNetwork
          = true) →
      (validateForm validators forms formName).result = some true ∧
      ∃ formData, forms formName = some formData ∧
        ∀ entry ∈ formData.fields, ∀ field, formData.element.fields entry.1 = some field →
          (validateField validators field entry.2).result = some true) ∧
    (∀ formData entry field, forms formName = some formData → entry ∈ formData.fields →
      formData.element.fields entry.1 = some field →
      (validateField validators field entry.2).result ≠ some true →
      (validateAndSubmitForm validators config env forms formName).events.any Event.isOnSubmit
          = false ∧
        (validateAndSubmitForm validators config env forms formName).events.any Event.isNetwork
          = false) := by
  constructor
  · intro hev
    have hvalid : (validateForm validators forms formName).result = some true := by
      by_contra hne
      have hb := validateAndSubmitForm_blocked validators config env forms formName hne
      rw [hb.1, hb.2] at hev
      simp at hev
    refine ⟨hvalid, ?_⟩
    cases hform : forms formName with
    | none => simp [validateForm, hform] at hvalid
    | some formData =>
      exact ⟨formData, rfl,
        (validateForm_result_true_iff validators forms formName formData hform).mp hvalid⟩
  · intro formData entry field hform hmem hfield hfail
    apply validateAndSubmitForm_blocked
    intro hvalid
    exact hfail
      ((validateForm_result_true_iff validators forms formName formData hform).mp hvalid
        entry hmem field hfield)

/-- Witness of C5: the contact form with a malformed email address is not submitted. -/
theorem validateAndSubmitForm_gate_witness :
    (initializeForms (some pageWithBadEmail) none "contact" = some (contactData pageWithBadEmail) ∧
      ("email", ["required", "email"]) ∈ (contactData pageWithBadEmail).fields ∧
      (contactData pageWithBadEmail).element.fields "email"
        = some (freshField "email" (js "not-an-email")) ∧
      (validateField setupValidators (freshField "email" (js "not-an-email"))
        ["required", "email"]).result ≠ some true) ∧
    ((validateAndSubmitForm setupValidators defaultConfig
        (sampleEnv fun _ => .rejected (js "Failed to fetch"))
        (initializeForms (some pageWithBadEmail) none) "contact").events.any Event.isOnSubmit
        = false ∧
      (validateAndSubmitForm setupValidators defaultConfig
        (sampleEnv fun _ => .rejected (js "Failed to fetch"))
        (initializeForms (some pageWithBadEmail) none) "contact").events.any Event.isNetwork
        = false) :=
  ⟨⟨rfl, by decide, rfl, by decide⟩,
    (validateAndSubmitForm_gate setupValidators defaultConfig
      (sampleEnv fun _ => .rejected (js "Failed to fetch"))
      (initializeForms (some pageWithBadEmail) none) "contact").2
      (contactData pageWithBadEmail) ("email", ["required", "email"])
      (freshField "email" (js "not-an-email")) rfl (by decide) rfl (by decide)⟩

/-! ### The retrying submitter -/

/-- An attempt that returns ends `submitWithRetry` with that value. -/
theorem submitWithRetry_of_ok (config : Config) (post : Nat → FetchOutcome)
    (data : SubmissionData) (attempt : Nat) (reply : ServerReply)
    (h : attemptOnce (post attempt) = .ok reply) :
    submitWithRetry config post data attempt =
      { events := [.post attempt data], result := .ok reply } := by
  rw [submitWithRetry]
  simp [h]

/-- A failed attempt within the budget, with a retryable error, is followed by the delay
and by the next attempt. -/
theorem submitWithRetry_of_retry (config : Config) (post : Nat → FetchOutcome)
    (data : SubmissionData) (attempt : Nat) (message : JSString)
    (h : attemptOnce (post attempt) = .error message)
    (hbudget : attempt < config.retryAttempts) (hretry : shouldNotRetry message = false) :
    submitWithRetry config post data attempt =
      { events := .post attempt data :: .delay (config.retryDelay * attempt) ::
          (submitWithRetry config post data (attempt + 1)).events
        result := (submitWithRetry config post data (attempt + 1)).result } := by
  rw [submitWithRetry]
  simp [h, hbudget, hretry]

/-- A failed attempt that is the last of the budget, or whose error is not retryable,
ends `submitWithRetry` with that error. -/
theorem submitWithRetry_of_final (config : Config) (post : Nat → FetchOutcome)
    (data : SubmissionData) (attempt : Nat) (message : JSString)
    (h : attemptOnce (post attempt) = .error message)
    (hstop : config.retryAttempts ≤ attempt ∨ shouldNotRetry message = true) :
    submitWithRetry config post data attempt =
      { events := [.post attempt data], result := .error message } := by
  rw [submitWithRetry]
  have hc : ¬ (attempt < config.retryAttempts ∧ ¬ shouldNotRetry message = true) := by
    rcases hstop with hle | hno
    · intro hh; omega
    · intro hh; exact hh.2 hno
  simp only [h, hc, if_false]

/-- Every run of `submitWithRetry` begins by the POST of its own attempt. -/
theorem submitWithRetry_head (config : Config) (post : Nat → FetchOutcome)
    (data : SubmissionData) (attempt : Nat) :
    (submitWithRetry config post data attempt).events.head? = some (.post attempt data) := by
  rw [submitWithRetry]
  split
  · rfl
  · split <;> rfl

/-- A run that begins by `count` failed attempts, each retryable and within the budget,
goes on as the run started after them: the same result, and `count` more POSTs. -/
theorem submitWithRetry_after_retries (config : Config) (post : Nat → FetchOutcome)
    (data : SubmissionData) (count start : Nat)
    (hfails : ∀ i, start ≤ i → i < start + count →
      i < config.retryAttempts ∧
        ∃ m, attemptOnce (post i) = .error m ∧ shouldNotRetry m = false) :
    (submitWithRetry config post data start).result =
        (submitWithRetry config post data (start + count)).result ∧
      ((submitWithRetry config post data start).events.filter Event.isPost).length =
        count +
          ((submitWithRetry config post data (start + count)).events.filter Event.isPost).length := by
  induction count generalizing start with
  | zero => simp
  | succ n ih =>
    obtain ⟨hbudget, m, hm, hretry⟩ := hfails start (Nat.le_refl _) (by omega)
    have hnext := ih (start + 1) (fun i h1 h2 => hfails i (by omega) (by omega))
    rw [submitWithRetry_of_retry config post data start m hm hbudget hretry]
    have hidx : start + 1 + n = start + (n + 1) := by omega
    rw [hidx] at hnext
    refine ⟨hnext.1, ?_⟩
    simp only [List.filter_cons, Event.isPost, if_true, Bool.false_eq_true, if_false,
      List.length_cons]
    rw [hnext.2]
    omega

/-- C6: with the constructor's configuration (`retryAttempts = 3`), if each attempt fails
with a retryable error, `submitWithRetry` started at attempt 1 makes exactly the attempts
1, 2 and 3, one after another, and then raises the error of the third attempt. -/
theorem submitWithRetry_exhausts_budget (post : Nat → FetchOutcome) (data : SubmissionData)
    (m1 m2 m3 : JSString)
    (h1 : attemptOnce (post 1) = .error m1) (h2 : attemptOnce (post 2) = .error m2)
    (h3 : attemptOnce (post 3) = .error m3)
    (r1 : shouldNotRetry m1 = false) (r2 : shouldNotRetry m2 = false)
    (_r3 : shouldNotRetry m3 = false) :
    (submitWithRetry defaultConfig post data 1).events =
        [.post 1 data, .delay 1000, .post 2 data, .delay 2000, .post 3 data] ∧
      ((submitWithRetry defaultConfig post data 1).events.filter Event.isPost).length = 3 ∧
      (submitWithRetry defaultConfig post data 1).result = .error m3 := by
  have e3 := submitWithRetry_of_final defaultConfig post data 3 m3 h3 (Or.inl (by decide))
  have e2 := submitWithRetry_of_retry defaultConfig post data 2 m2 h2 (by decide) r2
  have e1 := submitWithRetry_of_retry defaultConfig post data 1 m1 h1 (by decide) r1
  rw [e1, e2, e3]
  simp [defaultConfig, Event.isPost]

/-- Witness of C6: every attempt meets a connection failure. -/
theorem submitWithRetry_exhausts_budget_witness :
    (attemptOnce (FetchOutcome.rejected (js "Failed to fetch")) = .error (js "Failed to fetch") ∧
      shouldNotRetry (js "Failed to fetch") = false) ∧
    ∀ data : SubmissionData,
      (submitWithRetry defaultConfig (fun _ => .rejected (js "Failed to fetch")) data 1).events =
          [.post 1 data, .delay 1000, .post 2 data, .delay 2000, .post 3 data] ∧
        ((submitWithRetry defaultConfig (fun _ => .rejected (js "Failed to fetch")) data 1).events.filter
          Event.isPost).length = 3 ∧
        (submitWithRetry defaultConfig (fun _ => .rejected (js "Failed to fetch")) data 1).result =
          .error (js "Failed to fetch") :=
  ⟨⟨rfl, by decide⟩, fun data =>
    submitWithRetry_exhausts_budget (fun _ => .rejected (js "Failed to fetch")) data
      (js "Failed to fetch") (js "Failed to fetch") (js "Failed to fetch") rfl rfl rfl
      (by decide) (by decide) (by decide)⟩

/-- The array `noRetryErrors` holds the lower-cased pattern after lower-casing. -/
theorem shouldNotRetry_of_includes (message pattern : JSString)
    (hmem : pattern ∈ noRetryErrors.map toLowerCase)
    (h : includes (toLowerCase message) pattern = true) : shouldNotRetry message = true := by
  obtain ⟨errorType, hin, rfl⟩ := List.mem_map.mp hmem
  exact List.any_eq_true.mpr ⟨errorType, hin, h⟩

/-- C7: if an attempt fails with an error whose lower-cased message contains one of
"already subscribed", "invalid email", "missing required", "http 400", "http 401",
"http 403", then `submitWithRetry` makes no further attempt and raises that same error:
the run from that attempt is its single POST, and a run started at an earlier attempt
whose attempts before this one were all retried raises that error after this attempt. -/
theorem submitWithRetry_no_retry (config : Config) (post : Nat → FetchOutcome)
    (data : SubmissionData) (attempt : Nat) (message : JSString)
    (hfail : attemptOnce (post attempt) = .error message)
    (hmatch : includes (toLowerCase message) (js "already subscribed") = true ∨
      includes (toLowerCase message) (js "invalid email") = true ∨
      includes (toLowerCase message) (js "missing required") = true ∨
      includes (toLowerCase message) (js "http 400") = true ∨
      includes (toLowerCase message) (js "http 401") = true ∨
      includes (toLowerCase message) (js "http 403") = true) :
    (submitWithRetry config post data attempt).events = [.post attempt data] ∧
      ((submitWithRetry config post data attempt).events.filter Event.isPost).length = 1 ∧
      (submitWithRetry config post data attempt).result = .error message ∧
      ∀ earlier,
        (∀ i, attempt - earlier ≤ i → i < attempt →
          i < config.retryAttempts ∧
            ∃ m, attemptOnce (post i) = .error m ∧ shouldNotRetry m = false) →
        earlier ≤ attempt →
        (submitWithRetry config post data (attempt - earlier)).result = .error message ∧
          ((submitWithRetry config post data (attempt - earlier)).events.filter
            Event.isPost).length = earlier + 1 := by
  have hno : shouldNotRetry message = true := by
    rcases hmatch with h | h | h | h | h | h <;>
      exact shouldNotRetry_of_includes message _ (by decide) h
  have hrun := submitWithRetry_of_final config post data attempt message hfail (Or.inr hno)
  refine ⟨by rw [hrun], by rw [hrun]; rfl, by rw [hrun], ?_⟩
  intro earlier hfails hle
  have hchain := submitWithRetry_after_retries config post data earlier (attempt - earlier)
    (fun i h1 h2 => hfails i h1 (by omega))
  have hidx : attempt - earlier + earlier = attempt := by omega
  rw [hidx, hrun] at hchain
  exact ⟨hchain.1, by rw [hchain.2]; rfl⟩

/-- Witness of C7: an endpoint whose first answer is a status 500 saying that the address
is already subscribed gets one attempt; an endpoint that gives this answer at attempt 2,
after a connection failure at attempt 1, gets two attempts and the run raises that
answer's error. -/
theorem submitWithRetry_no_retry_witness :
    (attemptOnce (.resolved alreadySubscribedResponse) =
        .error (js "HTTP 500: Email Already Subscribed") ∧
      includes (toLowerCase (js "HTTP 500: Email Already Subscribed")) (js "already subscribed")
        = true) ∧
    ∀ data : SubmissionData,
      ((submitWithRetry defaultConfig (fun _ => .resolved alreadySubscribedResponse) data 1).events
          = [.post 1 data] ∧
        ((submitWithRetry defaultConfig (fun _ => .resolved alreadySubscribedResponse)
          data 1).events.filter Event.isPost).length = 1 ∧
        (submitWithRetry defaultConfig (fun _ => .resolved alreadySubscribedResponse) data 1).result
          = .error (js "HTTP 500: Email Already Subscribed")) ∧
      ((submitWithRetry defaultConfig unreachableThenSubscribed data (2 - 1)).result
          = .error (js "HTTP 500: Email Already Subscribed") ∧
        ((submitWithRetry defaultConfig unreachableThenSubscribed data (2 - 1)).events.filter
          Event.isPost).length = 1 + 1) :=
  ⟨⟨rfl, by decide⟩, fun data =>
    ⟨⟨(submitWithRetry_no_retry defaultConfig (fun _ => .resolved alreadySubscribedResponse) data 1
          (js "HTTP 500: Email Already Subscribed") rfl (Or.inl (by decide))).1,
        (submitWithRetry_no_retry defaultConfig (fun _ => .resolved alreadySubscribedResponse) data 1
          (js "HTTP 500: Email Already Subscribed") rfl (Or.inl (by decide))).2.1,
        (submitWithRetry_no_retry defaultConfig (fun _ => .resolved alreadySubscribedResponse) data 1
          (js "HTTP 500: Email Already Subscribed") rfl (Or.inl (by decide))).2.2.1⟩,
      (submitWithRetry_no_retry defaultConfig unreachableThenSubscribed data 2
        (js "HTTP 500: Email Already Subscribed") rfl (Or.inl (by decide))).2.2.2 1
        (fun i h1 h2 => by
          have hi : i = 1 := by omega
          subst hi
          exact ⟨by decide, js "Failed to fetch", rfl, by decide⟩)
        (by decide)⟩⟩

/-- The last event of a run of `submitWithRetry` is a POST. -/
theorem submitWithRetry_getLast (config : Config) (post : Nat → FetchOutcome)
    (data : SubmissionData) (budget attempt : Nat) (hb : config.retryAttempts - attempt = budget) :
    ∃ k, (submitWithRetry config post data attempt).events.getLast? = some (.post k data) := by
  induction budget generalizing attempt with
  | zero =>
    cases h : attemptOnce (post attempt) with
    | ok reply => exact ⟨attempt, by rw [submitWithRetry_of_ok config post data attempt reply h]; rfl⟩
    | error message =>
      refine ⟨attempt, ?_⟩
      rw [submitWithRetry_of_final config post data attempt message h (Or.inl (by omega))]
      rfl
  | succ n ih =>
    cases h : attemptOnce (post attempt) with
    | ok reply => exact ⟨attempt, by rw [submitWithRetry_of_ok config post data attempt reply h]; rfl⟩
    | error message =>
      cases hr : shouldNotRetry message with
      | true =>
        refine ⟨attempt, ?_⟩
        rw [submitWithRetry_of_final config post data attempt message h (Or.inr hr)]
        rfl
      | false =>
        obtain ⟨k, hk⟩ := ih (attempt + 1) (by omega)
        refine ⟨k, ?_⟩
        rw [submitWithRetry_of_retry config post data attempt message h (by omega) hr]
        have hhead := submitWithRetry_head config post data (attempt + 1)
        cases hev : (submitWithRetry config post data (attempt + 1)).events with
        | nil => rw [hev] at hhead; simp at hhead
        | cons e rest =>
          rw [hev] at hk
          simpa using hk

/-- C8: when attempt `n` of `submitWithRetry` fails and is retried, the events that follow
its POST are the delay `retryDelay * n` and then the POST of attempt `n + 1`; a run ends
by a POST, never by a delay, and the last attempt of the budget is followed by nothing;
with the constructor's configuration the delays are 1000 before attempt 2 and 2000 before
attempt 3. -/
theorem submitWithRetry_backoff (config : Config) (post : Nat → FetchOutcome)
    (data : SubmissionData) (attempt : Nat) :
    (∀ message, attemptOnce (post attempt) = .error message →
      attempt < config.retryAttempts → shouldNotRetry message = false →
      ∃ rest, (submitWithRetry config post data attempt).events =
        .post attempt data :: .delay (config.retryDelay * attempt) ::
          .post (attempt + 1) data :: rest) ∧
    (config.retryAttempts ≤ attempt →
      (submitWithRetry config post data attempt).events = [.post attempt data]) ∧
    (∃ k, (submitWithRetry config post data attempt).events.getLast? = some (.post k data)) ∧
    (∀ m1 m2, attemptOnce (post 1) = .error m1 → attemptOnce (post 2) = .error m2 →
      shouldNotRetry m1 = false → shouldNotRetry m2 = false →
      (submitWithRetry defaultConfig post data 1).events =
        [.post 1 data, .delay 1000, .post 2 data, .delay 2000, .post 3 data]) := by
  refine ⟨?_, ?_, submitWithRetry_getLast config post data _ attempt rfl, ?_⟩
  · intro message hfail hbudget hretry
    rw [submitWithRetry_of_retry config post data attempt message hfail hbudget hretry]
    have hhead := submitWithRetry_head config post data (attempt + 1)
    cases hev : (submitWithRetry config post data (attempt + 1)).events with
    | nil => rw [hev] at hhead; simp at hhead
    | cons e rest =>
      rw [hev] at hhead
      simp only [List.head?_cons, Option.some.injEq] at hhead
      exact ⟨rest, by rw [hhead]⟩
  · intro hlast
    cases h : attemptOnce (post attempt) with
    | ok reply => rw [submitWithRetry_of_ok config post data attempt reply h]
    | error message =>
      rw [submitWithRetry_of_final config post data attempt message h (Or.inl hlast)]
  · intro m1 m2 h1 h2 r1 r2
    rw [submitWithRetry_of_retry defaultConfig post data 1 m1 h1 (by decide) r1,
      submitWithRetry_of_retry defaultConfig post data 2 m2 h2 (by decide) r2]
    have hlast : (submitWithRetry defaultConfig post data (2 + 1)).events = [.post 3 data] := by
      cases h : attemptOnce (post 3) with
      | ok reply => rw [submitWithRetry_of_ok defaultConfig post data 3 reply h]
      | error message =>
        rw [submitWithRetry_of_final defaultConfig post data 3 message h (Or.inl (by decide))]
    rw [hlast]
    rfl

/-- Witness of C8: every attempt meets a connection failure; the delay after attempt 1 is
1000 and the delay after attempt 2 is 2000. -/
theorem submitWithRetry_backoff_witness :
    (attemptOnce (FetchOutcome.rejected (js "Failed to fetch")) = .error (js "Failed to fetch") ∧
      1 < defaultConfig.retryAttempts ∧ 2 < defaultConfig.retryAttempts ∧
      shouldNotRetry (js "Failed to fetch") = false) ∧
    ∀ data : SubmissionData,
      (∃ rest, (submitWithRetry defaultConfig (fun _ => .rejected (js "Failed to fetch")) data 1).events
        = .post 1 data :: .delay (defaultConfig.retryDelay * 1) :: .post (1 + 1) data :: rest) ∧
      (∃ rest, (submitWithRetry defaultConfig (fun _ => .rejected (js "Failed to fetch")) data 2).events
        = .post 2 data :: .delay (defaultConfig.retryDelay * 2) :: .post (2 + 1) data :: rest) ∧
      (submitWithRetry defaultConfig (fun _ => .rejected (js "Failed to fetch")) data 1).events =
        [.post 1 data, .delay 1000, .post 2 data, .delay 2000, .post 3 data] :=
  ⟨⟨rfl, by decide, by decide, by decide⟩, fun data =>
    ⟨(submitWithRetry_backoff defaultConfig (fun _ => .rejected (js "Failed to fetch")) data 1).1
        (js "Failed to fetch") rfl (by decide) (by decide),
      (submitWithRetry_backoff defaultConfig (fun _ => .rejected (js "Failed to fetch")) data 2).1
        (js "Failed to fetch") rfl (by decide) (by decide),
      (submitWithRetry_backoff defaultConfig (fun _ => .rejected (js "Failed to fetch")) data 1).2.2.2
        (js "Failed to fetch") (js "Failed to fetch") rfl rfl (by decide) (by decide)⟩⟩

/-! ### The error classifier -/

/-- C9: for every error message, the tag that `handleSubmissionError` records is the tag
of the first matching test in the order duplicate, validation, cors, network, timeout,
server, with `general` when none matches, all tests being made on the lower-cased message;
the tag is always one of these seven values. -/
theorem handleSubmissionError_tag (message : JSString) (formType : String) :
    (∃ text, handleSubmissionError message formType =
      [.showNotification "error" text 8000,
        .trackFormSubmission formType false
          (some (toLowerCase message, firstMatchingTag (toLowerCase message)))]) ∧
    (classifyError (toLowerCase message)).2 = firstMatchingTag (toLowerCase message) ∧
    firstMatchingTag (toLowerCase message) ∈
      ["duplicate", "validation", "cors", "network", "timeout", "server", "general"] := by
  have key : (classifyError (toLowerCase message)).2 = firstMatchingTag (toLowerCase message) ∧
      firstMatchingTag (toLowerCase message) ∈
        ["duplicate", "validation", "cors", "network", "timeout", "server", "general"] := by
    generalize toLowerCase message = errorMsg
    simp only [classifyError, firstMatchingTag, classificationOrder, List.find?, List.any,
      Bool.or_false]
    cases includes errorMsg (js "already subscribed") <;>
    cases includes errorMsg (js "invalid email") <;>
    cases includes errorMsg (js "cors") <;>
    cases includes errorMsg (js "access-control") <;>
    cases includes errorMsg (js "failed to fetch") <;>
    cases includes errorMsg (js "network") <;>
    cases includes errorMsg (js "timeout") <;>
    cases includes errorMsg (js "aborted") <;>
    cases includes errorMsg (js "http 5") <;>
    simp
  refine ⟨⟨(classifyError (toLowerCase message)).1, ?_⟩, key.1, key.2⟩
  simp only [handleSubmissionError]
  rw [← key.1]

/-! ### A rejected address -/

/-- The error raised for the body `{success: false, message: "Invalid email"}` is
classified as a validation failure. -/
theorem handleSubmissionError_invalid_email (formType : String) :
    handleSubmissionError (messageOr (some (js "Invalid email")) (js "Form submission failed"))
        formType =
      [.showNotification "error" (js "Please check your email address and try again.") 8000,
        .trackFormSubmission formType false (some (js "invalid email", "validation"))] ∧
    handleSubmissionError (messageOr (some (js "Invalid email"))
        (js "Newsletter subscription failed")) formType =
      [.showNotification "error" (js "Please check your email address and try again.") 8000,
        .trackFormSubmission formType false (some (js "invalid email", "validation"))] := by
  have hm : ∀ fallback, messageOr (some (js "Invalid email")) fallback = js "Invalid email" := by
    intro fallback
    have hne : js "Invalid email" ≠ [] := by decide
    simp [messageOr, hne]
  have hl : toLowerCase (js "Invalid email") = js "invalid email" := by decide
  have hc : classifyError (js "invalid email") =
      (js "Please check your email address and try again.", "validation") := by decide
  simp only [hm, handleSubmissionError, hl, hc, and_self]

/-- C10: when the first response is an HTTP-ok reply with the body
`{success: false, message: "Invalid email"}`, a run of either submit handler makes exactly
one POST (attempt 1, no retry), classifies the failure as `validation` and requests
exactly one notification. -/
theorem submit_invalid_email_reply (config : Config) (env : Env) (form : FormElement)
    (handler : SubmitHandler) (response : Response)
    (hbutton : form.submitButton = true)
    (hpost : env.post 1 = .resolved response) (hok : response.ok = true)
    (hjson : response.json = .ok { success := false, message := some (js "Invalid email") }) :
    (∃ data formType, (runHandler config env form handler).events =
      [.onSubmit handler, .showLoadingState, .ipLookup, .post 1 data,
        .showNotification "error" (js "Please check your email address and try again.") 8000,
        .trackFormSubmission formType false (some (js "invalid email", "validation")),
        .hideLoadingState]) ∧
    ((runHandler config env form handler).events.filter Event.isPost).length = 1 ∧
    ((runHandler config env form handler).events.filter Event.isNotification).length = 1 ∧
    (classifyError (toLowerCase (js "Invalid email"))).2 = "validation" := by
  have hatt : attemptOnce (env.post 1) =
      .ok { success := false, message := some (js "Invalid email") } := by
    simp [attemptOnce, hpost, hok, hjson]
  have herr := handleSubmissionError_invalid_email
  have hshape : ∃ data formType, (runHandler config env form handler).events =
      [.onSubmit handler, .showLoadingState, .ipLookup, .post 1 data,
        .showNotification "error" (js "Please check your email address and try again.") 8000,
        .trackFormSubmission formType false (some (js "invalid email", "validation")),
        .hideLoadingState] := by
    cases handler with
    | handleContactSubmit =>
      refine ⟨contactSubmissionData env form, "contact", ?_⟩
      simp only [runHandler, handleContactSubmit, hbutton, not_true_eq_false, if_false]
      rw [submitWithRetry_of_ok config env.post _ 1 _ hatt]
      simp only [Bool.false_eq_true, if_false, (herr "contact").1]
      rfl
    | handleNewsletterSubmit =>
      refine ⟨newsletterSubmissionData env form, "newsletter", ?_⟩
      simp only [runHandler, handleNewsletterSubmit, hbutton, not_true_eq_false, if_false]
      rw [submitWithRetry_of_ok config env.post _ 1 _ hatt]
      simp only [Bool.false_eq_true, if_false, (herr "newsletter").2]
      rfl
  obtain ⟨data, formType, hev⟩ := hshape
  refine ⟨⟨data, formType, hev⟩, ?_, ?_, by decide⟩
  · rw [hev]; rfl
  · rw [hev]; rfl

/-- Witness of C10: the contact form, submitted against an endpoint whose first answer is
the reply of the scenario. -/
theorem submit_invalid_email_reply_witness :
    (pageWithoutPhone.submitButton = true ∧
      (sampleEnv fun _ => .resolved invalidEmailResponse).post 1 = .resolved invalidEmailResponse ∧
      invalidEmailResponse.ok = true ∧
      invalidEmailResponse.json = .ok { success := false, message := some (js "Invalid email") }) ∧
    ((∃ data formType,
        (runHandler defaultConfig (sampleEnv fun _ => .resolved invalidEmailResponse)
          pageWithoutPhone .handleContactSubmit).events =
        [.onSubmit .handleContactSubmit, .showLoadingState, .ipLookup, .post 1 data,
          .showNotification "error" (js "Please check your email address and try again.") 8000,
          .trackFormSubmission formType false (some (js "invalid email", "validation")),
          .hideLoadingState]) ∧
      ((runHandler defaultConfig (sampleEnv fun _ => .resolved invalidEmailResponse)
        pageWithoutPhone .handleContactSubmit).events.filter Event.isPost).length = 1 ∧
      ((runHandler defaultConfig (sampleEnv fun _ => .resolved invalidEmailResponse)
        pageWithoutPhone .handleContactSubmit).events.filter Event.isNotification).length = 1 ∧
      (classifyError (toLowerCase (js "Invalid email"))).2 = "validation") :=
  ⟨⟨rfl, rfl, rfl, rfl⟩,
    submit_invalid_email_reply defaultConfig (sampleEnv fun _ => .resolved invalidEmailResponse)
      pageWithoutPhone .handleContactSubmit invalidEmailResponse rfl rfl rfl rfl⟩

/-! ### The matcher computes the language of a pattern -/

/-- The iterations of `{lo,hi}` match between `lo` and `hi` words of the body in a row. -/
theorem mem_repRun (step : JSString → List JSString) (P : JSString → Prop)
    (hstep : ∀ s t, t ∈ step s ↔ ∃ w, P w ∧ s = w ++ t) (t : JSString) (hi : Nat) :
    ∀ lo s, t ∈ repRun step lo hi s ↔
      ∃ ws : List JSString, lo ≤ ws.length ∧ ws.length ≤ hi ∧ (∀ x ∈ ws, P x) ∧
        s = ws.flatten ++ t := by
  induction hi with
  | zero =>
    intro lo s
    simp only [repRun]
    constructor
    · intro h
      by_cases hlo : lo = 0
      · simp only [hlo, if_true, List.mem_singleton] at h
        exact ⟨[], by simp [hlo], by simp, by simp, by simp [h]⟩
      · simp [hlo] at h
    · rintro ⟨ws, h1, h2, _, h4⟩
      have hnil : ws = [] := List.length_eq_zero.mp (by omega)
      subst hnil
      have hlo : lo = 0 := by simpa using h1
      simp only [List.flatten_nil, List.nil_append] at h4
      simp [hlo, h4]
  | succ n ih =>
    intro lo s
    simp only [repRun, List.mem_append, List.mem_flatMap]
    constructor
    · rintro (h | ⟨u, hu, ht⟩)
      · by_cases hlo : lo = 0
        · simp only [hlo, if_true, List.mem_singleton] at h
          exact ⟨[], by simp [hlo], by simp, by simp, by simp [h]⟩
        · simp [hlo] at h
      · obtain ⟨w, hw, rfl⟩ := (hstep s u).mp hu
        obtain ⟨ws, h1, h2, h3, rfl⟩ := (ih (lo - 1) u).mp ht
        refine ⟨w :: ws, by simp only [List.length_cons]; omega,
          by simp only [List.length_cons]; omega, ?_, by simp⟩
        intro x hx
        rcases List.mem_cons.mp hx with rfl | hx
        · exact hw
        · exact h3 x hx
    · rintro ⟨ws, h1, h2, h3, h4⟩
      cases ws with
      | nil =>
        left
        have hlo : lo = 0 := by simpa using h1
        simp only [List.flatten_nil, List.nil_append] at h4
        simp [hlo, h4]
      | cons w ws =>
        right
        simp only [List.length_cons] at h1 h2
        refine ⟨ws.flatten ++ t, (hstep _ _).mpr ⟨w, h3 w (by simp), by simp [h4]⟩, ?_⟩
        exact (ih _ _).mpr ⟨ws, by omega, by omega, fun x hx => h3 x (by simp [hx]), rfl⟩

/-- The iterations of `*` match any number of words of the body in a row, once the fuel
covers the length of the input. -/
theorem mem_starRun (step : JSString → List JSString) (P : JSString → Prop)
    (hstep : ∀ s t, t ∈ step s ↔ ∃ w, P w ∧ s = w ++ t) (t : JSString) (fuel : Nat) :
    ∀ s, s.length ≤ fuel →
      (t ∈ starRun step fuel s ↔ ∃ ws : List JSString, (∀ x ∈ ws, P x) ∧ s = ws.flatten ++ t) := by
  induction fuel with
  | zero =>
    intro s hs
    have hnil : s = [] := List.length_eq_zero.mp (by omega)
    subst hnil
    simp only [starRun, List.mem_singleton]
    constructor
    · intro h
      exact ⟨[], by simp, by simp [h]⟩
    · rintro ⟨ws, _, h⟩
      have := congrArg List.length h
      simp only [List.length_nil, List.length_append] at this
      exact List.length_eq_zero.mp (by omega)
  | succ n ih =>
    intro s hs
    simp only [starRun, List.mem_cons, List.mem_flatMap, List.mem_filter, decide_eq_true_eq]
    constructor
    · rintro (h | ⟨u, ⟨hu, hlt⟩, ht⟩)
      · exact ⟨[], by simp, by simp [h]⟩
      · obtain ⟨w, hw, rfl⟩ := (hstep s u).mp hu
        obtain ⟨ws, h3, rfl⟩ := (ih u (by omega)).mp ht
        refine ⟨w :: ws, ?_, by simp⟩
        intro x hx
        rcases List.mem_cons.mp hx with rfl | hx
        · exact hw
        · exact h3 x hx
    · rintro ⟨ws, h3, h4⟩
      induction ws with
      | nil =>
        left
        simpa using h4.symm
      | cons w ws ihws =>
        by_cases hw : w = []
        · subst hw
          exact ihws (fun x hx => h3 x (by simp [hx])) (by simpa using h4)
        · right
          have hpos : 0 < w.length := List.length_pos.mpr hw
          have hlen : (ws.flatten ++ t).length < s.length := by
            rw [h4]
            simp only [List.flatten_cons, List.length_append]
            omega
          refine ⟨ws.flatten ++ t, ⟨(hstep _ _).mpr ⟨w, h3 w (by simp), by simp [h4]⟩, hlen⟩, ?_⟩
          exact (ih _ (by omega)).mpr ⟨ws, fun x hx => h3 x (by simp [hx]), rfl⟩

/-- The matcher is sound and complete: `t` is left over by some match of `r` at the start
of `s` exactly when `s` is a word of the language of `r` followed by `t`. -/
theorem Regex.mem_run_iff (r : Regex) :
    ∀ s t, t ∈ r.run s ↔ ∃ w, r.lang w ∧ s = w ++ t := by
  induction r with
  | cls p =>
    intro s t
    cases s with
    | nil =>
      simp only [Regex.run, Regex.lang, List.not_mem_nil, false_iff]
      rintro ⟨w, ⟨c, rfl, _⟩, h⟩
      simp at h
    | cons c rest =>
      simp only [Regex.run, Regex.lang]
      constructor
      · intro h
        by_cases hp : p c = true
        · simp only [hp, if_true, List.mem_singleton] at h
          exact ⟨[c], ⟨c, rfl, hp⟩, by simp [h]⟩
        · simp [hp] at h
      · rintro ⟨w, ⟨d, rfl, hd⟩, h⟩
        simp only [List.singleton_append, List.cons.injEq] at h
        obtain ⟨rfl, rfl⟩ := h
        simp [hd]
  | seq a b iha ihb =>
    intro s t
    simp only [Regex.run, Regex.lang, List.mem_flatMap]
    constructor
    · rintro ⟨u, hu, ht⟩
      obtain ⟨w1, h1, rfl⟩ := (iha s u).mp hu
      obtain ⟨w2, h2, rfl⟩ := (ihb u t).mp ht
      exact ⟨w1 ++ w2, ⟨w1, w2, rfl, h1, h2⟩, by simp⟩
    · rintro ⟨w, ⟨w1, w2, rfl, h1, h2⟩, rfl⟩
      exact ⟨w2 ++ t, (iha _ _).mpr ⟨w1, h1, by simp⟩, (ihb _ _).mpr ⟨w2, h2, rfl⟩⟩
  | opt a iha =>
    intro s t
    simp only [Regex.run, Regex.lang, List.mem_cons]
    constructor
    · rintro (h | h)
      · exact ⟨[], Or.inl rfl, by simp [h]⟩
      · obtain ⟨w, hw, rfl⟩ := (iha s t).mp h
        exact ⟨w, Or.inr hw, rfl⟩
    · rintro ⟨w, (rfl | hw), rfl⟩
      · left; simp
      · right; exact (iha _ _).mpr ⟨w, hw, rfl⟩
  | star a iha =>
    intro s t
    simp only [Regex.run, Regex.lang]
    rw [mem_starRun a.run a.lang iha t s.length s (Nat.le_refl _)]
    constructor
    · rintro ⟨ws, h, rfl⟩
      exact ⟨ws.flatten, ⟨ws, rfl, h⟩, rfl⟩
    · rintro ⟨w, ⟨ws, rfl, h⟩, rfl⟩
      exact ⟨ws, h, rfl⟩
  | plus a iha =>
    intro s t
    simp only [Regex.run, Regex.lang, List.mem_flatMap]
    constructor
    · rintro ⟨u, hu, ht⟩
      obtain ⟨w, hw, rfl⟩ := (iha s u).mp hu
      obtain ⟨ws, h, rfl⟩ := (mem_starRun a.run a.lang iha t u.length u (Nat.le_refl _)).mp ht
      refine ⟨w ++ ws.flatten, ⟨w :: ws, by simp, by simp, ?_⟩, by simp⟩
      intro x hx
      rcases List.mem_cons.mp hx with rfl | hx
      · exact hw
      · exact h x hx
    · rintro ⟨w, ⟨ws, hne, rfl, h⟩, rfl⟩
      cases ws with
      | nil => exact absurd rfl hne
      | cons w ws =>
        refine ⟨ws.flatten ++ t, (iha _ _).mpr ⟨w, h w (by simp), by simp⟩, ?_⟩
        exact (mem_starRun a.run a.lang iha t _ _ (Nat.le_refl _)).mpr
          ⟨ws, fun x hx => h x (by simp [hx]), rfl⟩
  | rep lo hi a iha =>
    intro s t
    simp only [Regex.run, Regex.lang]
    rw [mem_repRun a.run a.lang iha t hi lo s]
    constructor
    · rintro ⟨ws, h1, h2, h3, rfl⟩
      exact ⟨ws.flatten, ⟨ws, h1, h2, rfl, h3⟩, rfl⟩
    · rintro ⟨w, ⟨ws, h1, h2, rfl, h3⟩, rfl⟩
      exact ⟨ws, h1, h2, h3, rfl⟩

/-- The method `test` of an anchored pattern holds exactly on the language of the pattern. -/
theorem Regex.test_iff (r : Regex) (s : JSString) : r.test s = true ↔ r.lang s := by
  simp only [Regex.test, List.any_eq_true, List.isEmpty_iff]
  constructor
  · rintro ⟨t, ht, rfl⟩
    obtain ⟨w, hw, rfl⟩ := (r.mem_run_iff s []).mp ht
    simpa using hw
  · intro h
    exact ⟨[], (r.mem_run_iff s []).mpr ⟨s, h, by simp⟩, rfl⟩

/-! ### The languages of the three patterns -/

/-- Words of one character each make a string of as many characters, all in the class. -/
theorem flatten_of_singletons (p : Nat → Bool) (ws : List JSString)
    (h : ∀ x ∈ ws, ∃ c, x = [c] ∧ p c = true) :
    ws.flatten.length = ws.length ∧ ∀ c ∈ ws.flatten, p c = true := by
  induction ws with
  | nil => simp
  | cons w ws ih =>
    obtain ⟨c, hw, hc⟩ := h w (by simp)
    subst hw
    obtain ⟨hlen, hall⟩ := ih (fun x hx => h x (by simp [hx]))
    refine ⟨by simp [hlen], ?_⟩
    intro d hd
    simp only [List.flatten_cons, List.singleton_append, List.mem_cons] at hd
    rcases hd with rfl | hd
    · exact hc
    · exact hall d hd

/-- A string is its characters taken as words of one character each. -/
theorem flatten_map_singleton (w : JSString) : (w.map fun c => [c]).flatten = w := by
  induction w with
  | nil => rfl
  | cons c w ih => simp [ih]

/-- The language of `[...]{lo,hi}`. -/
theorem lang_rep_cls (p : Nat → Bool) (lo hi : Nat) (w : JSString) :
    (Regex.rep lo hi (.cls p)).lang w ↔
      lo ≤ w.length ∧ w.length ≤ hi ∧ ∀ c ∈ w, p c = true := by
  simp only [Regex.lang]
  constructor
  · rintro ⟨ws, h1, h2, rfl, h3⟩
    obtain ⟨hlen, hall⟩ := flatten_of_singletons p ws h3
    exact ⟨by omega, by omega, hall⟩
  · rintro ⟨h1, h2, h3⟩
    refine ⟨w.map fun c => [c], by simpa using h1, by simpa using h2,
      (flatten_map_singleton w).symm, ?_⟩
    intro x hx
    obtain ⟨c, hc, rfl⟩ := List.mem_map.mp hx
    exact ⟨c, rfl, h3 c hc⟩

/-- The language of `[...]+`. -/
theorem lang_plus_cls (p : Nat → Bool) (w : JSString) :
    (Regex.plus (.cls p)).lang w ↔ w ≠ [] ∧ ∀ c ∈ w, p c = true := by
  simp only [Regex.lang]
  constructor
  · rintro ⟨ws, hne, rfl, h3⟩
    obtain ⟨hlen, hall⟩ := flatten_of_singletons p ws h3
    refine ⟨?_, hall⟩
    intro hnil
    rw [hnil] at hlen
    exact hne (List.length_eq_zero.mp hlen.symm)
  · rintro ⟨hne, h3⟩
    refine ⟨w.map fun c => [c], by simpa using hne, (flatten_map_singleton w).symm, ?_⟩
    intro x hx
    obtain ⟨c, hc, rfl⟩ := List.mem_map.mp hx
    exact ⟨c, rfl, h3 c hc⟩

/-- The language of a literal character. -/
theorem lang_chr (ch : Char) (w : JSString) : (Regex.chr ch).lang w ↔ w = [ch.toNat] := by
  simp only [Regex.chr, Regex.lang, beq_iff_eq]
  constructor
  · rintro ⟨c, rfl, rfl⟩; rfl
  · intro h; exact ⟨ch.toNat, h, rfl⟩

/-- The class of the name pattern holds the letters, the white-space characters, the dot,
the hyphen and the apostrophe. -/
theorem isNameChar_iff (c : Nat) :
    isNameChar c = true ↔
      (isLetter c = true ∨ isWhiteSpace c = true ∨ c = 0x2E ∨ c = 0x2D ∨ c = 0x27) := by
  simp only [isNameChar, isLetter, Bool.or_eq_true, beq_iff_eq]
  tauto

/-- The language of the name pattern. -/
theorem namePattern_lang (s : JSString) : namePattern.lang s ↔ AcceptedName s := by
  rw [namePattern, lang_rep_cls]
  unfold AcceptedName
  constructor
  · rintro ⟨hlo, hhi, hall⟩
    exact ⟨hlo, hhi, fun c hc => (isNameChar_iff c).mp (hall c hc)⟩
  · rintro ⟨hlo, hhi, hall⟩
    exact ⟨hlo, hhi, fun c hc => (isNameChar_iff c).mpr (hall c hc)⟩

/-- The language of the phone pattern. -/
theorem phonePattern_lang (s : JSString) : phonePattern.lang s ↔ AcceptedPhone s := by
  have h91 : js "+91" = ['+'.toNat, '9'.toNat, '1'.toNat] := by decide
  simp only [phonePattern, Regex.lang, Regex.chr, AcceptedPhone, IsMobileNumber]
  have hrep := lang_rep_cls (inRange '0' '9') 9 9
  simp only [Regex.lang] at hrep
  constructor
  · rintro ⟨u, v, rfl, hu, first, ds, rfl, ⟨d, rfl, hd⟩, hds⟩
    obtain ⟨h1, h2, h3⟩ := (hrep ds).mp hds
    refine ⟨u, [d] ++ ds, rfl, ?_, by simp only [List.length_append, List.length_singleton]; omega,
      ?_, d, ds, rfl, by simpa using hd⟩
    · rcases hu with rfl | ⟨a, b, rfl, ⟨ca, rfl, ha⟩, c, e, rfl, ⟨cc, rfl, hc⟩, f, g, rfl,
        ⟨cf, rfl, hf⟩, hg⟩
      · exact Or.inl rfl
      · obtain rfl : ca = '+'.toNat := by simpa using ha
        obtain rfl : cc = '9'.toNat := by simpa using hc
        obtain rfl : cf = '1'.toNat := by simpa using hf
        rcases hg with rfl | ⟨sep, rfl, hsep⟩
        · right; left; rw [h91]; rfl
        · right; right
          exact ⟨sep, hsep, by rw [h91]; rfl⟩
    · intro c hc
      simp only [List.singleton_append, List.mem_cons] at hc
      rcases hc with rfl | hc
      · have hmem : c ∈ js "6789" := by simpa using hd
        have : js "6789" = [0x36, 0x37, 0x38, 0x39] := by decide
        rw [this] at hmem
        simp only [List.mem_cons, List.mem_singleton, List.not_mem_nil, or_false] at hmem
        rcases hmem with rfl | rfl | rfl | rfl <;> decide
      · exact h3 c hc
  · rintro ⟨pre, num, rfl, hpre, hlen, hdig, d, rest, rfl, hd⟩
    refine ⟨pre, d :: rest, rfl, ?_, [d], rest, rfl, ⟨d, rfl, by simpa using hd⟩, ?_⟩
    · rcases hpre with rfl | rfl | ⟨sep, hsep, rfl⟩
      · exact Or.inl rfl
      · right
        exact ⟨['+'.toNat], ['9'.toNat, '1'.toNat], by rw [h91]; rfl, ⟨_, rfl, by decide⟩,
          ['9'.toNat], ['1'.toNat], rfl, ⟨_, rfl, by decide⟩, ['1'.toNat], [], rfl,
          ⟨_, rfl, by decide⟩, Or.inl rfl⟩
      · right
        exact ⟨['+'.toNat], ['9'.toNat, '1'.toNat, sep], by rw [h91]; rfl, ⟨_, rfl, by decide⟩,
          ['9'.toNat], ['1'.toNat, sep], rfl, ⟨_, rfl, by decide⟩, ['1'.toNat], [sep], rfl,
          ⟨_, rfl, by decide⟩, Or.inr ⟨sep, rfl, hsep⟩⟩
    · apply (hrep rest).mpr
      simp only [List.length_cons] at hlen
      exact ⟨by omega, by omega, fun c hc => hdig c (by simp [hc])⟩

/-- The class `[a-zA-Z0-9]` holds the letters and the digits. -/
theorem isAlnum_iff (c : Nat) : isAlnum c = true ↔ isLetter c = true ∨ isDigit c = true := by
  simp [isAlnum, isLetter, isDigit, or_assoc]

/-- The class `[a-zA-Z0-9-]` holds the letters, the digits and the hyphen. -/
theorem isAlnumHyphen_iff (c : Nat) :
    isAlnumHyphen c = true ↔ isLetter c = true ∨ isDigit c = true ∨ c = 0x2D := by
  simp [isAlnumHyphen, isAlnum, isLetter, isDigit, or_assoc]

/-- A letter or a digit is not a hyphen. -/
theorem ne_hyphen_of_alnum (c : Nat) (h : isLetter c = true ∨ isDigit c = true) : c ≠ 0x2D := by
  rintro rfl
  revert h
  decide

/-- The class of the local part holds the letters, the digits and the marks. -/
theorem isEmailLocal_iff (c : Nat) :
    isEmailLocal c = true ↔ isLetter c = true ∨ isDigit c = true ∨ c ∈ localMarks := by
  have hjs : js ".!#$%&*+/=?^_|~-" =
      [0x2E, 0x21, 0x23, 0x24, 0x25, 0x26, 0x2A, 0x2B, 0x2F, 0x3D, 0x3F, 0x5E, 0x5F, 0x7C,
        0x7E, 0x2D] := by decide
  have hmarks : ((js ".!#$%&*+/=?^_|~-").contains c = true ∨ c = 39 ∨ c = 96 ∨ c = 123 ∨
      c = 125) ↔ c ∈ localMarks := by
    rw [hjs]
    simp only [List.contains_cons, List.contains_nil, Bool.or_false, Bool.or_eq_true,
      beq_iff_eq, localMarks, List.mem_cons, List.mem_singleton, List.not_mem_nil, or_false]
    omega
  rw [← hmarks, ← or_assoc, ← isAlnum_iff]
  simp only [isEmailLocal, Bool.or_eq_true, beq_iff_eq, or_assoc]

/-- The language of the label of the email pattern. -/
theorem emailLabel_lang (w : JSString) : emailLabel.lang w ↔ IsLabel w := by
  have hrep := lang_rep_cls isAlnumHyphen 0 61
  simp only [Regex.lang] at hrep
  simp only [emailLabel, Regex.lang, IsLabel]
  constructor
  · rintro ⟨u, v, rfl, ⟨c, rfl, hc⟩, hv⟩
    have hc2 := (isAlnum_iff c).mp hc
    rcases hv with rfl | ⟨x, y, rfl, hx, d, rfl, hd⟩
    · refine ⟨by simp, by simp, ?_, ?_, ?_⟩
      · intro e he
        obtain rfl : e = c := by simpa using he
        rcases hc2 with h | h
        · exact Or.inl h
        · exact Or.inr (Or.inl h)
      · simpa using ne_hyphen_of_alnum c hc2
      · simpa using ne_hyphen_of_alnum c hc2
    · obtain ⟨_, hxlen, hxall⟩ := (hrep x).mp hx
      have hd2 := (isAlnum_iff d).mp hd
      refine ⟨by simp, by simp only [List.length_append, List.length_singleton]; omega, ?_, ?_, ?_⟩
      · intro e he
        simp only [List.singleton_append, List.mem_cons, List.mem_append, List.mem_singleton,
          List.not_mem_nil, or_false] at he
        rcases he with rfl | he | rfl
        · rcases hc2 with h | h
          · exact Or.inl h
          · exact Or.inr (Or.inl h)
        · exact (isAlnumHyphen_iff e).mp (hxall e he)
        · rcases hd2 with h | h
          · exact Or.inl h
          · exact Or.inr (Or.inl h)
      · simpa using ne_hyphen_of_alnum c hc2
      · have hlast : ([c] ++ (x ++ [d])).getLast? = some d := by
          rw [← List.append_assoc, List.getLast?_append]
          rfl
        rw [hlast]
        simpa using ne_hyphen_of_alnum d hd2
  · rintro ⟨h1, h2, hall, hhead, hlast⟩
    cases w with
    | nil => simp at h1
    | cons c v =>
      have hc : isAlnum c = true := by
        apply (isAlnum_iff c).mpr
        have hne : c ≠ 0x2D := by simpa using hhead
        rcases hall c (by simp) with h | h | h
        · exact Or.inl h
        · exact Or.inr h
        · exact absurd h hne
      refine ⟨[c], v, rfl, ⟨c, rfl, hc⟩, ?_⟩
      rcases List.eq_nil_or_concat v with rfl | ⟨x, d, rfl⟩
      · exact Or.inl rfl
      · right
        simp only [List.concat_eq_append] at h2 hall hlast
        have hd : isAlnum d = true := by
          apply (isAlnum_iff d).mpr
          have hl : (c :: (x ++ [d])).getLast? = some d := by
            rw [← List.cons_append, List.getLast?_append]
            rfl
          have hne : d ≠ 0x2D := by
            rw [hl] at hlast
            simpa using hlast
          rcases hall d (by simp) with h | h | h
          · exact Or.inl h
          · exact Or.inr h
          · exact absurd h hne
        refine ⟨x, [d], List.concat_eq_append x d, (hrep x).mpr ⟨Nat.zero_le _, ?_, ?_⟩, d, rfl, hd⟩
        · simp only [List.length_cons, List.length_append, List.length_singleton] at h2
          omega
        · intro e he
          exact (isAlnumHyphen_iff e).mpr (hall e (by simp [he]))

/-- The labels after the first are each written after a dot. -/
theorem dotSeparated_cons (l : JSString) (ls : List JSString) :
    dotSeparated (l :: ls) = l ++ (ls.map fun x => 0x2E :: x).flatten := by
  induction ls generalizing l with
  | nil => simp [dotSeparated]
  | cons m rest ih => simp [dotSeparated, ih m]

/-- The language of the email pattern. -/
theorem emailPattern_lang (s : JSString) : emailPattern.lang s ↔ IsEmail s := by
  have hplus := lang_plus_cls isEmailLocal
  have hlabel := emailLabel_lang
  have hat := lang_chr '@'
  have hdot := lang_chr '.'
  unfold emailPattern
  simp only [Regex.lang.eq_2, Regex.lang.eq_4, hplus, hlabel, hat, hdot, IsEmail]
  constructor
  · rintro ⟨u, v, rfl, ⟨hne, hloc⟩, a, b, rfl, rfl, l, rest, rfl, hl, ws, rfl, hws⟩
    refine ⟨u, l :: ws.map (fun x => x.drop 1), ?_, hne,
      fun c hc => (isEmailLocal_iff c).mp (hloc c hc), by simp, ?_⟩
    · rw [dotSeparated_cons]
      have hmap : (ws.map (fun x => x.drop 1)).map (fun x => 0x2E :: x) = ws := by
        rw [List.map_map]
        conv => rhs; rw [← List.map_id ws]
        apply List.map_congr_left
        intro x hx
        obtain ⟨dot, lab, rfl, rfl, _⟩ := hws x hx
        rfl
      rw [hmap]
      rfl
    · intro x hx
      rcases List.mem_cons.mp hx with rfl | hx
      · exact hl
      · obtain ⟨y, hy, rfl⟩ := List.mem_map.mp hx
        obtain ⟨dot, lab, rfl, rfl, hlab⟩ := hws y hy
        exact hlab
  · rintro ⟨localPart, labels, rfl, hne, hloc, hlabels, hall⟩
    cases labels with
    | nil => exact absurd rfl hlabels
    | cons l ls =>
      refine ⟨localPart, 0x40 :: dotSeparated (l :: ls), rfl,
        ⟨hne, fun c hc => (isEmailLocal_iff c).mpr (hloc c hc)⟩, ['@'.toNat],
        dotSeparated (l :: ls), rfl, rfl, l, (ls.map fun x => 0x2E :: x).flatten,
        dotSeparated_cons l ls, hall l (by simp), ls.map fun x => 0x2E :: x, rfl, ?_⟩
      intro x hx
      obtain ⟨y, hy, rfl⟩ := List.mem_map.mp hx
      exact ⟨['.'.toNat], y, rfl, rfl, hall y (by simp [hy])⟩

/-! ### The text shown to the user -/

set_option maxRecDepth 20000 in
/-- C11: the text that `handleSubmissionError` hands to the notifier is the text paired
with the classification tag, so that two errors of the same tag get the same text; it is
one of seven fixed texts, none built from the error message; and each call requests
exactly one notification. -/
theorem handleSubmissionError_text (message : JSString) (formType : String) :
    handleSubmissionError message formType =
        [.showNotification "error"
            (notificationTextOfTag (classifyError (toLowerCase message)).2) 8000,
          .trackFormSubmission formType false
            (some (toLowerCase message, (classifyError (toLowerCase message)).2))] ∧
      ((handleSubmissionError message formType).filter Event.isNotification).length = 1 ∧
      (∀ other : JSString,
        (classifyError (toLowerCase other)).2 = (classifyError (toLowerCase message)).2 →
        (classifyError (toLowerCase other)).1 = (classifyError (toLowerCase message)).1) ∧
      notificationTextOfTag (classifyError (toLowerCase message)).2 ∈
        ["duplicate", "validation", "cors", "network", "timeout", "server", "general"].map
          notificationTextOfTag := by
  have htext : ∀ e : JSString, (classifyError e).1 = notificationTextOfTag (classifyError e).2 ∧
      (classifyError e).2 ∈
        ["duplicate", "validation", "cors", "network", "timeout", "server", "general"] := by
    intro e
    unfold classifyError
    simp only []
    split_ifs <;> exact ⟨rfl, by decide⟩
  have hshape : handleSubmissionError message formType =
      [.showNotification "error"
          (notificationTextOfTag (classifyError (toLowerCase message)).2) 8000,
        .trackFormSubmission formType false
          (some (toLowerCase message, (classifyError (toLowerCase message)).2))] := by
    simp only [handleSubmissionError]
    rw [(htext (toLowerCase message)).1]
  refine ⟨hshape, by rw [hshape]; rfl, ?_, List.mem_map_of_mem _ (htext _).2⟩
  intro other hsame
  rw [(htext (toLowerCase other)).1, (htext (toLowerCase message)).1, hsame]

/-- Witness of C11: two server failures of different status and body get the same text. -/
theorem handleSubmissionError_text_witness :
    (classifyError (toLowerCase (js "HTTP 503: Service Unavailable"))).2 =
        (classifyError (toLowerCase (js "HTTP 500: Internal Error"))).2 ∧
      (classifyError (toLowerCase (js "HTTP 503: Service Unavailable"))).1 =
        (classifyError (toLowerCase (js "HTTP 500: Internal Error"))).1 :=
  ⟨by decide,
    (handleSubmissionError_text (js "HTTP 500: Internal Error") "contact").2.2.1
      (js "HTTP 503: Service Unavailable") (by decide)⟩

/-! ### The phone, email and name rules -/

/-- The phone rule is the test of the phone pattern. -/
theorem ruleAccepts_phone (s : JSString) :
    ruleAccepts setupValidators s "phone" = phonePattern.test s := rfl

/-- The email rule is the test of the email pattern. -/
theorem ruleAccepts_email (s : JSString) :
    ruleAccepts setupValidators s "email" = emailPattern.test s := rfl

/-- The name rule is the test of the name pattern. -/
theorem ruleAccepts_name (s : JSString) :
    ruleAccepts setupValidators s "name" = namePattern.test s := rfl

/-- C12 (as stated) fails: `919876543210` has the claimed shape (the prefix `91`, no
separator, then ten digits beginning with 9), and the phone rule rejects it. -/
theorem phone_rule_claimed_shape_fails :
    ¬ (ruleAccepts setupValidators (js "919876543210") "phone" = true ↔
        ClaimedPhone (js "919876543210")) := by
  intro h
  have hshape : ClaimedPhone (js "919876543210") :=
    ⟨js "91", [], js "9876543210", by decide, Or.inr (Or.inr rfl), Or.inl rfl,
      by decide, by decide, 0x39, js "876543210", by decide, by decide⟩
  exact absurd (h.mpr hshape) (by decide)

/-- C12 (amended): the phone rule accepts a string if and only if it consists of an
optional prefix `+91`, which may be followed by a single separator (a white-space
character or a hyphen), and then exactly 10 digits of which the first is 6, 7, 8 or 9. -/
theorem phone_rule_iff (s : JSString) :
    ruleAccepts setupValidators s "phone" = true ↔ AcceptedPhone s := by
  rw [ruleAccepts_phone, Regex.test_iff, phonePattern_lang]

/-- A character of dot-separated labels is a dot or a character of a label. -/
theorem mem_dotSeparated (labels : List JSString) (c : Nat) (h : c ∈ dotSeparated labels) :
    c = 0x2E ∨ ∃ l ∈ labels, c ∈ l := by
  cases labels with
  | nil => simp [dotSeparated] at h
  | cons l ls =>
    rw [dotSeparated_cons] at h
    rcases List.mem_append.mp h with h | h
    · exact Or.inr ⟨l, by simp, h⟩
    · obtain ⟨x, hx, hc⟩ := List.mem_flatten.mp h
      obtain ⟨y, hy, rfl⟩ := List.mem_map.mp hx
      rcases List.mem_cons.mp hc with rfl | hc
      · exact Or.inl rfl
      · exact Or.inr ⟨y, by simp [hy], hc⟩

/-- C13: the email rule accepts a string if and only if it is a non-empty local part of
letters, digits and the marks ``.!#$%&'*+/=?^_`{|}~-``, then `@`, then one or more labels
separated by dots, each label 1 to 63 characters long, made of letters, digits and hyphens
only, and neither starting nor ending with a hyphen; such a string holds `@` once. -/
theorem email_rule_iff (s : JSString) :
    (ruleAccepts setupValidators s "email" = true ↔ IsEmail s) ∧
      (ruleAccepts setupValidators s "email" = true → s.count 0x40 = 1) := by
  have hiff : ruleAccepts setupValidators s "email" = true ↔ IsEmail s := by
    rw [ruleAccepts_email, Regex.test_iff, emailPattern_lang]
  refine ⟨hiff, fun h => ?_⟩
  obtain ⟨localPart, labels, rfl, _, hloc, _, hlabels⟩ := hiff.mp h
  have h1 : (0x40 : Nat) ∉ localPart := by
    intro hmem
    have := hloc _ hmem
    revert this
    decide
  have h2 : (0x40 : Nat) ∉ dotSeparated labels := by
    intro hmem
    rcases mem_dotSeparated labels _ hmem with hdot | ⟨l, hl, hc⟩
    · revert hdot
      decide
    · have := (hlabels l hl).2.2.1 _ hc
      revert this
      decide
  rw [List.count_append, List.count_cons_self, List.count_eq_zero_of_not_mem h1,
    List.count_eq_zero_of_not_mem h2]

/-- Witness of C13: the address `john.doe@example.co.in` is accepted and holds `@` once. -/
theorem email_rule_iff_witness :
    ruleAccepts setupValidators (js "john.doe@example.co.in") "email" = true ∧
      (js "john.doe@example.co.in").count 0x40 = 1 :=
  ⟨by decide, (email_rule_iff (js "john.doe@example.co.in")).2 (by decide)⟩

/-- C14 (the code at the failing input): the name `Mary`, a tab, `Ann` is accepted by the
name rule and passes `validateField` under the rules `required`, `name`, although the tab
is neither a letter nor a space, a dot, a hyphen or an apostrophe, which are the only
characters that the message of the rule itself allows. -/
theorem name_rule_accepts_tab :
    ruleAccepts setupValidators (js "Mary" ++ [0x09] ++ js "Ann") "name" = true ∧
      (validateField setupValidators (freshField "name" (js "Mary" ++ [0x09] ++ js "Ann"))
        ["required", "name"]).result = some true ∧
      ¬ ClaimedName (js "Mary" ++ [0x09] ++ js "Ann") ∧
      (setupValidators "name").map Validator.message = some
        "Name must be 2-50 characters and contain only letters, spaces, dots, hyphens, and apostrophes" := by
  refine ⟨by decide, by decide, ?_, rfl⟩
  unfold ClaimedName
  decide

/-- The strings that the name rule accepts: those of 2 to 50 characters, each a letter
(`a`-`z`, `A`-`Z`), a white-space character (any character of the class `\s`, the space
being one of them), a dot, a hyphen or an apostrophe. -/
theorem name_rule_iff (s : JSString) :
    ruleAccepts setupValidators s "name" = true ↔ AcceptedName s := by
  rw [ruleAccepts_name, Regex.test_iff, namePattern_lang]

/-! ### What a run of `validateField` depends on -/

/-- The rules evaluated and the messages reported by the loop of `validateField` do not
depend on the marking of the field. -/
theorem runValidators_trace_congr (validators : Registry) (value : JSString)
    (f g : Field) (rules : List String) :
    (runValidators validators value f rules).reported =
        (runValidators validators value g rules).reported ∧
      (runValidators validators value f rules).evaluated =
        (runValidators validators value g rules).evaluated := by
  induction rules with
  | nil => exact ⟨rfl, rfl⟩
  | cons r rest ih =>
    simp only [runValidators]
    cases validators r with
    | none => exact ⟨rfl, rfl⟩
    | some validator =>
      by_cases ha : validator.accepts value = true
      · simp only [ha, if_true]
        exact ⟨ih.1, by rw [ih.2]⟩
      · simp only [ha, if_false]
        exact ⟨rfl, rfl⟩

/-- What `validateField` returns, reports and evaluates depends on the value of the field
only. -/
theorem validateField_congr (validators : Registry) (f g : Field) (rules : List String)
    (h : f.value = g.value) :
    (validateField validators f rules).result = (validateField validators g rules).result ∧
      (validateField validators f rules).reported = (validateField validators g rules).reported ∧
      (validateField validators f rules).evaluated =
        (validateField validators g rules).evaluated := by
  refine ⟨validateField_result_congr validators f g rules h, ?_⟩
  by_cases hc : trim f.value = [] ∧ "required" ∉ rules
  · rw [validateField_of_optional validators f rules hc.1 hc.2,
      validateField_of_optional validators g rules (h ▸ hc.1) hc.2]
    exact ⟨rfl, rfl⟩
  · rw [validateField_of_checked validators f rules hc,
      validateField_of_checked validators g rules (h ▸ hc), h]
    exact runValidators_trace_congr validators _ _ _ rules

/-- The loop of `validateField` returns a boolean when every rule name is registered. -/
theorem runValidators_result_isSome (validators : Registry) (value : JSString) (field : Field)
    (rules : List String) (hreg : ∀ r ∈ rules, (validators r).isSome = true) :
    (runValidators validators value field rules).result.isSome = true := by
  induction rules with
  | nil => rfl
  | cons r rest ih =>
    simp only [runValidators]
    have hr := hreg r (by simp)
    cases hv : validators r with
    | none => rw [hv] at hr; simp at hr
    | some validator =>
      by_cases ha : validator.accepts value = true
      · simp only [ha, if_true]
        exact ih (fun x hx => hreg x (by simp [hx]))
      · simp only [ha, if_false]
        rfl

/-- The method `validateField` returns a boolean when every rule name is registered. -/
theorem validateField_result_isSome (validators : Registry) (field : Field)
    (rules : List String) (hreg : ∀ r ∈ rules, (validators r).isSome = true) :
    (validateField validators field rules).result.isSome = true := by
  by_cases hc : trim field.value = [] ∧ "required" ∉ rules
  · rw [validateField_of_optional validators field rules hc.1 hc.2]
    rfl
  · rw [validateField_of_checked validators field rules hc]
    exact runValidators_result_isSome validators _ _ rules hreg

/-- The loop of `validateForm` runs to its end when every rule name bound to a field is
registered. -/
theorem validateFormFields_isSome (validators : Registry) (fields : List (String × List String))
    (st : LoopState) (hreg : ∀ entry ∈ fields, ∀ r ∈ entry.2, (validators r).isSome = true) :
    (validateFormFields validators fields st).isSome = true := by
  induction fields generalizing st with
  | nil => rfl
  | cons entry rest ih =>
    obtain ⟨fieldName, rules⟩ := entry
    have hrest : ∀ e ∈ rest, ∀ r ∈ e.2, (validators r).isSome = true :=
      fun e he => hreg e (by simp [he])
    simp only [validateFormFields]
    cases st.element.fields fieldName with
    | none => exact ih st hrest
    | some field =>
      have hsome := validateField_result_isSome validators field rules (hreg (fieldName, rules) (by simp))
      cases hr : (validateField validators field rules).result with
      | none => rw [hr] at hsome; simp at hsome
      | some b =>
        cases b with
        | true =>
          simp only [hr, Bool.not_eq_true, Bool.true_eq_false, if_false]
          exact ih _ hrest
        | false =>
          simp only [hr, Bool.not_eq_true, if_true]
          exact ih _ hrest

/-- The method `validateForm` returns a boolean when every rule name bound to a field of
the form is registered (and for a form that is not registered). -/
theorem validateForm_result_isSome (validators : Registry) (forms : Forms) (formName : String)
    (hreg : ∀ formData, forms formName = some formData →
      ∀ entry ∈ formData.fields, ∀ r ∈ entry.2, (validators r).isSome = true) :
    (validateForm validators forms formName).result.isSome = true := by
  unfold validateForm
  cases hform : forms formName with
  | none => rfl
  | some formData =>
    have hsome := validateFormFields_isSome validators formData.fields
      { element := formData.element, isFormValid := true, invalidFields := [] }
      (hreg formData hform)
    cases hloop : validateFormFields validators formData.fields
        { element := formData.element, isFormValid := true, invalidFields := [] } with
    | none => rw [hloop] at hsome; simp at hsome
    | some st => simp only [hloop, Option.isSome_some]

/-! ### Trimming -/

/-- A string without white space at either end is left as it is by `trim`. -/
theorem trim_eq_self (s : JSString) (h : ∀ c ∈ s, isWhiteSpace c = false) : trim s = s := by
  have hdrop : ∀ l : JSString, (∀ c ∈ l, isWhiteSpace c = false) →
      l.dropWhile isWhiteSpace = l := by
    intro l hl
    cases l with
    | nil => rfl
    | cons c t => simp [List.dropWhile, hl c (by simp)]
  unfold trim
  rw [hdrop s h, hdrop s.reverse (fun c hc => h c (List.mem_reverse.mp hc)), List.reverse_reverse]

/-- A digit is not a white-space character. -/
theorem isWhiteSpace_of_isDigit (c : Nat) (h : isDigit c = true) : isWhiteSpace c = false := by
  simp only [isDigit, inRange, Bool.and_eq_true, decide_eq_true_eq] at h
  have h1 : 48 ≤ c := h.1
  have h2 : c ≤ 57 := h.2
  simp only [isWhiteSpace, Bool.or_eq_false_iff, Bool.and_eq_false_imp, beq_eq_false_iff_ne,
    ne_eq, decide_eq_true_eq, decide_eq_false_iff_not]
  omega

/-! ### The service and phone fields -/

/-- C15: the service rule accepts a value if and only if it is non-empty and differs from
`Select a service`; a service field with the rules `required`, `service` whose value is
that placeholder passes the required rule and is reported invalid by `validateField` with
the message of the service rule. -/
theorem service_rule (value : JSString) (field : Field) :
    (ruleAccepts setupValidators value "service" = true ↔
      value ≠ [] ∧ value ≠ js "Select a service") ∧
    ruleAccepts setupValidators (trim (js "Select a service")) "required" = true ∧
    (validateField setupValidators { field with value := js "Select a service" }
      ["required", "service"]).result = some false ∧
    (validateField setupValidators { field with value := js "Select a service" }
      ["required", "service"]).reported = ["Please select a service from the dropdown"] ∧
    (validateField setupValidators { field with value := js "Select a service" }
      ["required", "service"]).evaluated = ["required", "service"] := by
  have hrule : ruleAccepts setupValidators value "service" =
      (!value.isEmpty && value != [] && value != js "Select a service") := rfl
  have hcongr := validateField_congr setupValidators
    { field with value := js "Select a service" }
    (freshField "service" (js "Select a service")) ["required", "service"] rfl
  refine ⟨?_, by decide, ?_, ?_, ?_⟩
  · rw [hrule]
    cases value with
    | nil => simp
    | cons c rest => simp
  · rw [hcongr.1]; decide
  · rw [hcongr.2.1]; decide
  · rw [hcongr.2.2]; decide

/-- For a value that is not empty once trimmed, `validateField` with the rule list
`["phone"]` returns the test of the phone pattern on the trimmed value. -/
theorem validateField_phone_result (field : Field) (hne : trim field.value ≠ []) :
    (validateField setupValidators field ["phone"]).result =
      some (phonePattern.test (trim field.value)) := by
  rw [validateField_of_checked setupValidators field ["phone"] (fun h => hne h.1)]
  have hreg : setupValidators "phone" = some (.pattern phonePattern
      "Please enter a valid Indian phone number (e.g., +91-9876543210)") := rfl
  simp only [runValidators, hreg, Validator.accepts]
  cases phonePattern.test (trim field.value) <;> rfl

/-- A string of the shape of the phone pattern has at least 10 characters. -/
theorem AcceptedPhone.length_ge (s : JSString) (h : AcceptedPhone s) : 10 ≤ s.length := by
  obtain ⟨pre, num, rfl, _, hlen, _⟩ := h
  simp only [List.length_append]
  omega

/-- C16: with the rule list `["phone"]`, `validateField` accepts `9876543210` and rejects
`12345`; every string of exactly 10 digits whose first digit is 6 to 9 is accepted, and
every string of fewer than 10 digits (more generally, of fewer than 10 characters once
trimmed) is rejected unless it is empty after trimming. -/
theorem phone_field (field : Field) :
    (validateField setupValidators { field with value := js "9876543210" } ["phone"]).result
        = some true ∧
      (validateField setupValidators { field with value := js "12345" } ["phone"]).result
        = some false ∧
      (IsMobileNumber field.value →
        (validateField setupValidators field ["phone"]).result = some true) ∧
      ((∀ c ∈ field.value, isDigit c = true) → field.value.length < 10 →
        trim field.value ≠ [] →
        (validateField setupValidators field ["phone"]).result = some false) ∧
      ((trim field.value).length < 10 → trim field.value ≠ [] →
        (validateField setupValidators field ["phone"]).result = some false) := by
  have hshort : (trim field.value).length < 10 → trim field.value ≠ [] →
      (validateField setupValidators field ["phone"]).result = some false := by
    intro hlen hne
    rw [validateField_phone_result field hne]
    cases htest : phonePattern.test (trim field.value) with
    | false => rfl
    | true =>
      have hshape := (phonePattern_lang _).mp ((Regex.test_iff _ _).mp htest)
      have := AcceptedPhone.length_ge _ hshape
      omega
  refine ⟨?_, ?_, ?_, ?_, hshort⟩
  · rw [(validateField_congr setupValidators { field with value := js "9876543210" }
      (freshField "phone" (js "9876543210")) ["phone"] rfl).1]
    decide
  · rw [(validateField_congr setupValidators { field with value := js "12345" }
      (freshField "phone" (js "12345")) ["phone"] rfl).1]
    decide
  · intro hnum
    have htrim : trim field.value = field.value :=
      trim_eq_self _ (fun c hc => isWhiteSpace_of_isDigit c (hnum.2.1 c hc))
    have hne : trim field.value ≠ [] := by
      rw [htrim]
      intro hnil
      have := hnum.1
      rw [hnil] at this
      simp at this
    rw [validateField_phone_result field hne, htrim]
    have hshape : AcceptedPhone field.value := ⟨[], field.value, rfl, Or.inl rfl, hnum⟩
    rw [(Regex.test_iff _ _).mpr ((phonePattern_lang _).mpr hshape)]
  · intro hdig hlen hne
    have htrim : trim field.value = field.value :=
      trim_eq_self _ (fun c hc => isWhiteSpace_of_isDigit c (hdig c hc))
    exact hshort (by rw [htrim]; exact hlen) hne

/-- Witness of C16: the numbers `9876543210` and `12345` in a fresh phone field. -/
theorem phone_field_witness :
    (IsMobileNumber (freshField "phone" (js "9876543210")).value ∧
      (validateField setupValidators (freshField "phone" (js "9876543210")) ["phone"]).result
        = some true) ∧
    (((∀ c ∈ (freshField "phone" (js "12345")).value, isDigit c = true) ∧
        (freshField "phone" (js "12345")).value.length < 10 ∧
        trim (freshField "phone" (js "12345")).value ≠ []) ∧
      (validateField setupValidators (freshField "phone" (js "12345")) ["phone"]).result
        = some false) :=
  ⟨⟨⟨by decide, by decide, 0x39, js "876543210", by decide, by decide⟩,
      (phone_field (freshField "phone" (js "9876543210"))).2.2.1
        ⟨by decide, by decide, 0x39, js "876543210", by decide, by decide⟩⟩,
    ⟨⟨by decide, by decide, by decide⟩,
      (phone_field (freshField "phone" (js "12345"))).2.2.2.1 (by decide) (by decide)
        (by decide)⟩⟩

/-! ### The scenario of a malformed address -/

/-- C17: in the contact form, when the email field holds `not-an-email` and the name field
holds `John Doe`, `validateForm` returns `false`, the name field passes its rules
`required`, `name`, the email field fails its rules `required`, `email`, and the message
reported for the email field is that of the email rule. -/
theorem contact_scenario (form : FormElement) (newsletterForm : Option FormElement)
    (nameField emailField : Field)
    (_hname : form.fields "name" = some nameField) (hnameValue : nameField.value = js "John Doe")
    (hemail : form.fields "email" = some emailField)
    (hemailValue : emailField.value = js "not-an-email") :
    (validateForm setupValidators (initializeForms (some form) newsletterForm) "contact").result
        = some false ∧
      (validateField setupValidators nameField ["required", "name"]).result = some true ∧
      (validateField setupValidators emailField ["required", "email"]).result = some false ∧
      (validateField setupValidators emailField ["required", "email"]).reported
        = ["Please enter a valid email address"] ∧
      (validateField setupValidators emailField ["required", "email"]).evaluated
        = ["required", "email"] := by
  have hn := validateField_congr setupValidators nameField (freshField "name" (js "John Doe"))
    ["required", "name"] hnameValue
  have he := validateField_congr setupValidators emailField
    (freshField "email" (js "not-an-email")) ["required", "email"] hemailValue
  have hemailFails : (validateField setupValidators emailField ["required", "email"]).result
      = some false := by rw [he.1]; decide
  have hform : initializeForms (some form) newsletterForm "contact" = some (contactData form) :=
    rfl
  have hfields : (contactData form).fields = (contactData pageWithBadEmail).fields := rfl
  refine ⟨?_, by rw [hn.1]; decide, hemailFails, by rw [he.2.1]; decide,
    by rw [he.2.2]; decide⟩
  have hsome := validateForm_result_isSome setupValidators
    (initializeForms (some form) newsletterForm) "contact" (by
      intro formData hfd
      rw [hform] at hfd
      cases hfd
      rw [hfields]
      decide)
  have hnot : (validateForm setupValidators (initializeForms (some form) newsletterForm)
      "contact").result ≠ some true := by
    intro hvalid
    have hall := (validateForm_result_true_iff setupValidators _ "contact" (contactData form)
      hform).mp hvalid
    have hpass := hall ("email", ["required", "email"]) (by rw [hfields]; decide) emailField
      hemail
    rw [hemailFails] at hpass
    cases hpass
  cases hr : (validateForm setupValidators (initializeForms (some form) newsletterForm)
      "contact").result with
  | none => rw [hr] at hsome; simp at hsome
  | some b =>
    cases b with
    | true => exact absurd hr hnot
    | false => rfl

/-- Witness of C17: the contact form whose other fields are filled in correctly. -/
theorem contact_scenario_witness :
    (pageWithBadEmail.fields "name" = some (freshField "name" (js "John Doe")) ∧
      pageWithBadEmail.fields "email" = some (freshField "email" (js "not-an-email"))) ∧
    ((validateForm setupValidators (initializeForms (some pageWithBadEmail) none) "contact").result
        = some false ∧
      (validateField setupValidators (freshField "name" (js "John Doe"))
        ["required", "name"]).result = some true ∧
      (validateField setupValidators (freshField "email" (js "not-an-email"))
        ["required", "email"]).result = some false ∧
      (validateField setupValidators (freshField "email" (js "not-an-email"))
        ["required", "email"]).reported = ["Please enter a valid email address"] ∧
      (validateField setupValidators (freshField "email" (js "not-an-email"))
        ["required", "email"]).evaluated = ["required", "email"]) :=
  ⟨⟨rfl, rfl⟩,
    contact_scenario pageWithBadEmail none (freshField "name" (js "John Doe"))
      (freshField "email" (js "not-an-email")) rfl rfl rfl rfl⟩

/-! ### A form that is not registered -/

/-- C18: for a form identity that is not in the `forms` map, `validateForm` returns
`false` without raising, validates no field and leaves the map, with every field in it,
as it was. -/
theorem validateForm_unknown (validators : Registry) (forms : Forms) (formName : String)
    (hunknown : forms formName = none) :
    (validateForm validators forms formName).result = some false ∧
      (validateForm validators forms formName).forms = forms ∧
      (validateForm validators forms formName).invalidFields = [] := by
  simp [validateForm, hunknown]

/-- Witness of C18: the name `signup` on a page that holds the contact form only. -/
theorem validateForm_unknown_witness :
    initializeForms (some pageWithBadEmail) none "signup" = none ∧
      (validateForm setupValidators (initializeForms (some pageWithBadEmail) none) "signup").result
        = some false ∧
      (validateForm setupValidators (initializeForms (some pageWithBadEmail) none) "signup").forms
        = initializeForms (some pageWithBadEmail) none ∧
      (validateForm setupValidators (initializeForms (some pageWithBadEmail) none)
        "signup").invalidFields = [] :=
  ⟨rfl, validateForm_unknown setupValidators (initializeForms (some pageWithBadEmail) none)
    "signup" rfl⟩

/-! ### Validating a field twice -/

/-- The field left by the loop of `validateField` is the field it was given, marked by
the result and the message. -/
theorem runValidators_field (validators : Registry) (value : JSString) (field : Field)
    (rules : List String) :
    (runValidators validators value field rules).field =
      markAs (runValidators validators value field rules).result
        (runValidators validators value field rules).reported field := by
  induction rules with
  | nil => rfl
  | cons r rest ih =>
    simp only [runValidators]
    cases validators r with
    | none => rfl
    | some validator =>
      by_cases ha : validator.accepts value = true
      · simpa [ha] using ih
      · simp [ha, markAs]

/-- Clearing a cleared field changes nothing. -/
theorem clearFieldError_idem (field : Field) :
    clearFieldError (clearFieldError field) = clearFieldError field := by
  cases h : field.errorElement <;> simp [clearFieldError, h]

/-- Marking a field, clearing it and marking it the same way again gives the first
marking. -/
theorem markAs_clear_markAs (result : Option Bool) (reported : List String) (field : Field) :
    markAs result reported (clearFieldError (markAs result reported (clearFieldError field))) =
      markAs result reported (clearFieldError field) := by
  rcases result with _ | _ | _ <;> rcases reported with _ | ⟨m, rest⟩ <;>
    cases h : field.errorElement <;>
    simp [markAs, clearFieldError, showFieldError, showFieldSuccess, h]

/-- The end of the shake does not show in the presentation state after a new marking. -/
theorem markAs_clear_shakeEnded (result : Option Bool) (reported : List String) (field : Field) :
    (markAs result reported
        (clearFieldError (shakeEnded (markAs result reported (clearFieldError field))))).presentation =
      (markAs result reported (clearFieldError field)).presentation := by
  rcases result with _ | _ | _ <;> rcases reported with _ | ⟨m, rest⟩ <;>
    cases h : field.errorElement <;>
    simp [markAs, clearFieldError, showFieldError, showFieldSuccess, shakeEnded,
      Field.presentation, h]

/-- C19: validating the same unchanged field twice yields the same result: the second
call returns the same validity and reports the same message as the first and leaves the
field as the first call left it; this holds for the presentation state (error and success
marking, message element, aria attributes) also when the shake of the first call has
ended in between. -/
theorem validateField_twice (validators : Registry) (field : Field) (rules : List String) :
    (validateField validators (validateField validators field rules).field rules).result =
        (validateField validators field rules).result ∧
      (validateField validators (validateField validators field rules).field rules).reported =
        (validateField validators field rules).reported ∧
      (validateField validators (validateField validators field rules).field rules).field =
        (validateField validators field rules).field ∧
      (validateField validators (shakeEnded (validateField validators field rules).field)
          rules).result = (validateField validators field rules).result ∧
      (validateField validators (shakeEnded (validateField validators field rules).field)
          rules).reported = (validateField validators field rules).reported ∧
      (validateField validators (shakeEnded (validateField validators field rules).field)
          rules).field.presentation = (validateField validators field rules).field.presentation := by
  have hv1 : (validateField validators field rules).field.value = field.value :=
    validateField_value validators field rules
  have hv2 : (shakeEnded (validateField validators field rules).field).value = field.value := hv1
  have hc1 := validateField_congr validators _ field rules hv1
  have hc2 := validateField_congr validators _ field rules hv2
  refine ⟨hc1.1, hc1.2.1, ?_, hc2.1, hc2.2.1, ?_⟩
  · by_cases hc : trim field.value = [] ∧ "required" ∉ rules
    · rw [validateField_of_optional validators _ rules (hv1 ▸ hc.1) hc.2,
        validateField_of_optional validators field rules hc.1 hc.2]
      exact clearFieldError_idem field
    · have hsecond := validateField_of_checked validators
        (validateField validators field rules).field rules (by rw [hv1]; exact hc)
      have hres := hc1.1
      have hrep := hc1.2.1
      rw [hsecond] at hres hrep ⊢
      rw [runValidators_field, hres, hrep]
      have hfirst := validateField_of_checked validators field rules hc
      have hf : (validateField validators field rules).field =
          markAs (validateField validators field rules).result
            (validateField validators field rules).reported (clearFieldError field) := by
        rw [hfirst]
        exact runValidators_field validators _ _ rules
      rw [hf]
      exact markAs_clear_markAs _ _ field
  · by_cases hc : trim field.value = [] ∧ "required" ∉ rules
    · rw [validateField_of_optional validators _ rules (hv2 ▸ hc.1) hc.2,
        validateField_of_optional validators field rules hc.1 hc.2]
      cases h : field.errorElement <;>
        simp [clearFieldError, shakeEnded, Field.presentation, h]
    · have hsecond := validateField_of_checked validators
        (shakeEnded (validateField validators field rules).field) rules (by rw [hv2]; exact hc)
      have hres := hc2.1
      have hrep := hc2.2.1
      rw [hsecond] at hres hrep ⊢
      rw [runValidators_field, hres, hrep]
      have hfirst := validateField_of_checked validators field rules hc
      have hf : (validateField validators field rules).field =
          markAs (validateField validators field rules).result
            (validateField validators field rules).reported (clearFieldError field) := by
        rw [hfirst]
        exact runValidators_field validators _ _ rules
      rw [hf]
      exact markAs_clear_shakeEnded _ _ field

/-! ### The history of submissions -/

/-- The last 50 elements of a list are at most 50, and all of it when it has at most 50. -/
theorem sliceLast50_length (submissions : List HistoryItem) :
    (sliceLast50 submissions).length = min submissions.length 50 := by
  simp only [sliceLast50, List.length_drop]
  omega

/-- C20: after `trackFormSubmission` runs on a stored array `H` with the new record `r`,
the stored list is the last 50 elements of `H` followed by `r`, that is the last 49
elements of `H` and then `r`: its length is `min (|H| + 1) 50`, `r` is its last element;
and no array that `trackFormSubmission` stores has more than 50 entries. -/
theorem trackFormSubmission_history (now : JSString) (history : List HistoryItem)
    (formType : String) (success : Bool) (additionalData : Option (JSString × String)) :
    trackFormSubmission now (.array history) formType success additionalData =
        .array (sliceLast50
          (history ++ [.record (newHistoryRecord now formType success additionalData)])) ∧
      sliceLast50 (history ++ [.record (newHistoryRecord now formType success additionalData)]) =
        history.drop (history.length - 49) ++
          [.record (newHistoryRecord now formType success additionalData)] ∧
      (sliceLast50
        (history ++ [.record (newHistoryRecord now formType success additionalData)])).length =
        min (history.length + 1) 50 ∧
      (sliceLast50
        (history ++ [.record (newHistoryRecord now formType success additionalData)])).getLast? =
        some (.record (newHistoryRecord now formType success additionalData)) ∧
      (∀ stored items,
        trackFormSubmission now stored formType success additionalData = .array items →
        items.length ≤ 50) := by
  have hsplit : sliceLast50
      (history ++ [.record (newHistoryRecord now formType success additionalData)]) =
        history.drop (history.length - 49) ++
          [.record (newHistoryRecord now formType success additionalData)] := by
    simp only [sliceLast50, List.length_append, List.length_singleton]
    have hidx : history.length + 1 - 50 = history.length - 49 := by omega
    rw [hidx, List.drop_append_of_le_length (by omega)]
  refine ⟨rfl, hsplit, ?_, ?_, ?_⟩
  · rw [sliceLast50_length]
    simp
  · rw [hsplit]
    simp
  · intro stored items hitems
    cases stored with
    | absent =>
      simp only [trackFormSubmission, Stored.array.injEq] at hitems
      rw [← hitems, sliceLast50_length]
      omega
    | empty =>
      simp only [trackFormSubmission, Stored.array.injEq] at hitems
      rw [← hitems, sliceLast50_length]
      omega
    | array before =>
      simp only [trackFormSubmission, Stored.array.injEq] at hitems
      rw [← hitems, sliceLast50_length]
      omega
    | notArray text => simp [trackFormSubmission] at hitems
    | corrupt text => simp [trackFormSubmission] at hitems

/-- Witness of C20: a history of 50 entries loses its oldest entry and ends by the new
record. -/
theorem trackFormSubmission_history_witness :
    trackFormSubmission (js "2024-01-01T00:00:00.000Z") (Stored.array fullHistory) "contact" true none =
        Stored.array (fullHistory.drop 1 ++
          [HistoryItem.record (newHistoryRecord (js "2024-01-01T00:00:00.000Z") "contact" true none)]) ∧
      (fullHistory.drop 1 ++
        [HistoryItem.record (newHistoryRecord (js "2024-01-01T00:00:00.000Z") "contact" true none)]).length
        ≤ 50 :=
  ⟨by decide,
    (trackFormSubmission_history (js "2024-01-01T00:00:00.000Z") fullHistory "contact" true
      none).2.2.2.2 (Stored.array fullHistory) _ (by decide)⟩

/-! ### Corrupt stored data -/

/-- C21 (as stated) fails: on a stored text that `JSON.parse` rejects, the stored item
after `trackFormSubmission` is not the list of the one new record. -/
theorem trackFormSubmission_corrupt_claim_fails :
    trackFormSubmission (js "2024-01-01T00:00:00.000Z") (.corrupt (js "not json")) "contact"
        true none ≠
      .array [.record (newHistoryRecord (js "2024-01-01T00:00:00.000Z") "contact" true none)] := by
  decide

/-- C21 (amended): on stored data that is corrupt or is not an array, `trackFormSubmission`
raises no error and stores nothing: the stored data stays as it was, and
`getFormStatistics` returns `null` on it; a missing or empty stored item is what is
treated as the empty list, the stored history then being the one new record. -/
theorem trackFormSubmission_unusable (now : JSString) (text : JSString) (formType : String)
    (success : Bool) (additionalData : Option (JSString × String))
    (readForeign : JSString → Option (String × Bool)) :
    trackFormSubmission now (.corrupt text) formType success additionalData = .corrupt text ∧
      trackFormSubmission now (.notArray text) formType success additionalData
        = .notArray text ∧
      getFormStatistics readForeign (.corrupt text) = none ∧
      getFormStatistics readForeign (.notArray text) = none ∧
      trackFormSubmission now .absent formType success additionalData =
        .array [.record (newHistoryRecord now formType success additionalData)] ∧
      trackFormSubmission now .empty formType success additionalData =
        .array [.record (newHistoryRecord now formType success additionalData)] :=
  ⟨rfl, rfl, rfl, rfl, rfl, rfl⟩

/-! ### The type of a stored record -/

/-- C22 (the code at the failing input): a failed contact submission classified as
`validation` is stored with the type `validation`, so that `getFormStatistics` counts it
under `byType["validation"]` and has no group `contact`; a successful one is stored with
the type `contact`. -/
theorem failed_submission_stored_under_error_type :
    recordTracking (js "2024-01-01T00:00:00.000Z") .absent
        (handleSubmissionError (js "Invalid email") "contact") =
      .array [.record
        { type := "validation", success := false, timestamp := js "2024-01-01T00:00:00.000Z",
          error := some (js "invalid email") }] ∧
    (getFormStatistics (fun _ => none)
        (recordTracking (js "2024-01-01T00:00:00.000Z") .absent
          (handleSubmissionError (js "Invalid email") "contact"))).map FormStatistics.byType =
      some [("validation", { total := 1, successful := 0, failed := 1 })] ∧
    recordTracking (js "2024-01-01T00:00:00.000Z") .absent
        [.trackFormSubmission "contact" true none] =
      .array [.record
        { type := "contact", success := true, timestamp := js "2024-01-01T00:00:00.000Z",
          error := none }] := by
  decide

/-! ### The connectivity probe -/

/-- C25 (as stated) fails: in debug mode a probe that cannot reach the endpoint is shown
to the user as an error notification, and a non-ok answer as a warning. -/
theorem testConnection_debug_shows_failure :
    (testConnection debugConfig (.rejected (js "Failed to fetch"))).events =
        [.showNotification "error" (js "Connection test failed - forms may still work") 4000] ∧
      (testConnection debugConfig (.resolved alreadySubscribedResponse)).events =
        [.showNotification "warning"
          (js "Form system connection warning - please check if issues persist") 4000] := by
  decide

/-- C25 (amended): for every outcome of the probe and every configuration `testConnection`
raises no error to its caller; with debug mode off it requests no notification whatever
the outcome, and with debug mode on it requests exactly one, failures included. -/
theorem testConnection_quiet (config : Config) (probe : FetchOutcome) :
    (testConnection config probe).raised = false ∧
      (config.debugMode = false → (testConnection config probe).events = []) ∧
      (config.debugMode = true →
        ((testConnection config probe).events.filter Event.isNotification).length = 1) := by
  refine ⟨?_, ?_, ?_⟩
  · unfold testConnection
    cases testConnectionTry config probe <;> rfl
  · intro hoff
    unfold testConnection testConnectionTry
    cases probe with
    | rejected message => simp [hoff]
    | resolved response =>
      cases hok : response.ok <;> cases hjson : response.json <;>
        simp [hoff, hok, hjson, showSystemNotification]
  · intro hon
    unfold testConnection testConnectionTry
    cases probe with
    | rejected message => simp [hon, showSystemNotification, Event.isNotification]
    | resolved response =>
      cases hok : response.ok <;> cases hjson : response.json <;>
        simp [hon, hok, hjson, showSystemNotification, Event.isNotification]

/-- Witness of C25: with the constructor's configuration a probe answered by status 500
requests no notification; in debug mode it requests one. -/
theorem testConnection_quiet_witness :
    (defaultConfig.debugMode = false ∧
      (testConnection defaultConfig (.resolved alreadySubscribedResponse)).events = []) ∧
    (debugConfig.debugMode = true ∧
      ((testConnection debugConfig (.resolved alreadySubscribedResponse)).events.filter
        Event.isNotification).length = 1) :=
  ⟨⟨rfl, (testConnection_quiet defaultConfig (.resolved alreadySubscribedResponse)).2.1 rfl⟩,
    ⟨rfl, (testConnection_quiet debugConfig (.resolved alreadySubscribedResponse)).2.2 rfl⟩⟩

/-! ### Submitting a form that is not registered -/

/-- C26 (the code at the failing input): for the name `signup`, which is not in the
`forms` map, `validateForm` returns `false` and `validateAndSubmitForm` then raises (the
lookup `this.forms.get(formName).element` of its else branch), before the shake and the
notification. -/
theorem validateAndSubmitForm_unknown_raises :
    initializeForms (some pageWithBadEmail) none "signup" = none ∧
      (validateForm setupValidators (initializeForms (some pageWithBadEmail) none) "signup").result
        = some false ∧
      (validateAndSubmitForm setupValidators defaultConfig
        (sampleEnv fun _ => .rejected (js "Failed to fetch"))
        (initializeForms (some pageWithBadEmail) none) "signup").raised = true ∧
      (validateAndSubmitForm setupValidators defaultConfig
        (sampleEnv fun _ => .rejected (js "Failed to fetch"))
        (initializeForms (some pageWithBadEmail) none) "signup").events = [.focusFirstError] := by
  refine ⟨rfl, rfl, ?_, ?_⟩ <;> simp [validateAndSubmitForm, validateForm, initializeForms]

/-! ### A submission that succeeds after retries -/

/-- An attempt answered by an HTTP-ok response with a parseable body returns that body. -/
theorem attemptOnce_of_ok (outcome : FetchOutcome) (response : Response) (reply : ServerReply)
    (hpost : outcome = .resolved response) (hok : response.ok = true)
    (hjson : response.json = .ok reply) : attemptOnce outcome = .ok reply := by
  simp [attemptOnce, hpost, hok, hjson]

/-- The POSTs of a run that begins by `count` retried attempts: those attempts in order,
then the POSTs of the run started after them. -/
theorem submitWithRetry_posts_after_retries (config : Config) (post : Nat → FetchOutcome)
    (data : SubmissionData) (count start : Nat)
    (hfails : ∀ i, start ≤ i → i < start + count →
      i < config.retryAttempts ∧
        ∃ m, attemptOnce (post i) = .error m ∧ shouldNotRetry m = false) :
    (submitWithRetry config post data start).events.filter Event.isPost =
      (List.range' start count).map (fun i => Event.post i data) ++
        (submitWithRetry config post data (start + count)).events.filter Event.isPost := by
  induction count generalizing start with
  | zero => simp
  | succ n ih =>
    obtain ⟨hbudget, m, hm, hretry⟩ := hfails start (Nat.le_refl _) (by omega)
    have hnext := ih (start + 1) (fun i h1 h2 => hfails i (by omega) (by omega))
    have hidx : start + 1 + n = start + (n + 1) := by omega
    rw [hidx] at hnext
    rw [submitWithRetry_of_retry config post data start m hm hbudget hretry]
    simp only [List.filter_cons, Event.isPost, if_true, Bool.false_eq_true, if_false,
      List.range'_succ, List.map_cons, List.cons_append, List.cons.injEq, true_and]
    exact hnext

/-- C27: if the attempts 1 to `k - 1` of `submitWithRetry` each fail with a retryable error
and attempt `k`, within the budget of attempts (3 in the constructor's configuration),
receives an HTTP-ok response with a parseable body, then exactly the attempts 1 to `k` are
made and the value returned is the parsed body of attempt `k`. -/
theorem submitWithRetry_succeeds_at (config : Config) (post : Nat → FetchOutcome)
    (data : SubmissionData) (k : Nat) (response : Response) (reply : ServerReply)
    (hk : 1 ≤ k) (hbudget : k ≤ config.retryAttempts)
    (hfails : ∀ i, 1 ≤ i → i < k →
      ∃ m, attemptOnce (post i) = .error m ∧ shouldNotRetry m = false)
    (hpost : post k = .resolved response) (hok : response.ok = true)
    (hjson : response.json = .ok reply) :
    (submitWithRetry config post data 1).result = .ok reply ∧
      (submitWithRetry config post data 1).events.filter Event.isPost =
        (List.range' 1 k).map (fun i => Event.post i data) ∧
      ((submitWithRetry config post data 1).events.filter Event.isPost).length = k := by
  have hlast := submitWithRetry_of_ok config post data k reply
    (attemptOnce_of_ok _ response reply hpost hok hjson)
  have hretries : ∀ i, 1 ≤ i → i < 1 + (k - 1) →
      i < config.retryAttempts ∧
        ∃ m, attemptOnce (post i) = .error m ∧ shouldNotRetry m = false :=
    fun i h1 h2 => ⟨by omega, hfails i h1 (by omega)⟩
  have hchain := submitWithRetry_after_retries config post data (k - 1) 1 hretries
  have hposts := submitWithRetry_posts_after_retries config post data (k - 1) 1 hretries
  have hidx : 1 + (k - 1) = k := by omega
  rw [hidx, hlast] at hchain hposts
  have hrange : (List.range' 1 k).map (fun i => Event.post i data) =
      (List.range' 1 (k - 1)).map (fun i => Event.post i data) ++ [Event.post k data] := by
    have hsplit : k = (k - 1) + 1 := by omega
    conv => lhs; rw [hsplit, List.range'_concat]
    simp only [List.map_append, List.map_cons, List.map_nil, Nat.one_mul]
    rw [hidx]
  have hshape : (submitWithRetry config post data 1).events.filter Event.isPost =
      (List.range' 1 k).map (fun i => Event.post i data) := by
    rw [hposts, hrange]
    rfl
  refine ⟨hchain.1, hshape, ?_⟩
  rw [hshape]
  simp

/-- Witness of C27: the endpoint cannot be reached at attempt 1 and answers at attempt 2. -/
theorem submitWithRetry_succeeds_at_witness :
    ((1 ≤ 2 ∧ 2 ≤ defaultConfig.retryAttempts) ∧
      attemptOnce (unreachableThenAccepted 1) = .error (js "Failed to fetch") ∧
      shouldNotRetry (js "Failed to fetch") = false) ∧
    ∀ data : SubmissionData,
      (submitWithRetry defaultConfig unreachableThenAccepted data 1).result =
          .ok { success := true, message := some (js "Saved") } ∧
        (submitWithRetry defaultConfig unreachableThenAccepted data 1).events.filter Event.isPost =
          (List.range' 1 2).map (fun i => Event.post i data) ∧
        ((submitWithRetry defaultConfig unreachableThenAccepted data 1).events.filter
          Event.isPost).length = 2 :=
  ⟨⟨⟨by decide, by decide⟩, rfl, by decide⟩, fun data =>
    submitWithRetry_succeeds_at defaultConfig unreachableThenAccepted data 2
      { ok := true, status := 200, text := js "",
        json := .ok { success := true, message := some (js "Saved") } }
      { success := true, message := some (js "Saved") } (by decide) (by decide)
      (fun i h1 h2 => by
        have hi : i = 1 := by omega
        subst hi
        exact ⟨js "Failed to fetch", rfl, by decide⟩)
      rfl rfl rfl⟩

/-! ### A reply that reports a failure -/

/-- C28: an attempt whose response is HTTP-ok with a parseable body is never retried by
`submitWithRetry`, whatever `success` and `message` the body holds: the run from that
attempt is its single POST and returns the body; an attempt is followed by a retry only
when it raised, and an attempt raises only on a rejected `fetch` (no connection, timeout),
a non-ok status or an unparseable body. -/
theorem submitWithRetry_reply_not_retried (config : Config) (post : Nat → FetchOutcome)
    (data : SubmissionData) (attempt : Nat) :
    (∀ response reply, post attempt = .resolved response → response.ok = true →
      response.json = .ok reply →
      (submitWithRetry config post data attempt).events = [.post attempt data] ∧
        (submitWithRetry config post data attempt).result = .ok reply) ∧
    ((submitWithRetry config post data attempt).events ≠ [.post attempt data] →
      ∃ m, attemptOnce (post attempt) = .error m ∧ shouldNotRetry m = false ∧
        attempt < config.retryAttempts) ∧
    (∀ m, attemptOnce (post attempt) = .error m →
      post attempt = .rejected m ∨
        (∃ response, post attempt = .resolved response ∧ response.ok = false) ∨
        (∃ response, post attempt = .resolved response ∧ response.ok = true ∧
          response.json = .error m)) := by
  refine ⟨?_, ?_, ?_⟩
  · intro response reply hpost hok hjson
    rw [submitWithRetry_of_ok config post data attempt reply
      (attemptOnce_of_ok _ response reply hpost hok hjson)]
    exact ⟨rfl, rfl⟩
  · intro hne
    cases h : attemptOnce (post attempt) with
    | ok reply =>
      rw [submitWithRetry_of_ok config post data attempt reply h] at hne
      exact absurd rfl hne
    | error m =>
      refine ⟨m, rfl, ?_⟩
      by_cases hstop : config.retryAttempts ≤ attempt ∨ shouldNotRetry m = true
      · rw [submitWithRetry_of_final config post data attempt m h hstop] at hne
        exact absurd rfl hne
      · constructor
        · cases hs : shouldNotRetry m with
          | false => rfl
          | true => exact absurd (Or.inr hs) hstop
        · by_contra hlt
          exact hstop (Or.inl (by omega))
  · intro m hm
    cases hp : post attempt with
    | rejected message =>
      left
      rw [hp] at hm
      simp only [attemptOnce, Except.error.injEq] at hm
      rw [hm]
    | resolved response =>
      right
      rw [hp] at hm
      cases hok : response.ok with
      | false => exact Or.inl ⟨response, rfl, hok⟩
      | true =>
        right
        simp only [attemptOnce, hok, not_true_eq_false, if_false] at hm
        exact ⟨response, rfl, hok, hm⟩

/-- Witness of C28: the reply `{success: false, message: "Invalid email"}` ends the run
after attempt 1, although its message is one of the patterns of `noRetryErrors`. -/
theorem submitWithRetry_reply_not_retried_witness :
    (invalidEmailResponse.ok = true ∧
      invalidEmailResponse.json = .ok { success := false, message := some (js "Invalid email") }) ∧
    ∀ data : SubmissionData,
      (submitWithRetry defaultConfig (fun _ => .resolved invalidEmailResponse) data 1).events =
          [.post 1 data] ∧
        (submitWithRetry defaultConfig (fun _ => .resolved invalidEmailResponse) data 1).result =
          .ok { success := false, message := some (js "Invalid email") } :=
  ⟨⟨rfl, rfl⟩, fun data =>
    (submitWithRetry_reply_not_retried defaultConfig (fun _ => .resolved invalidEmailResponse)
      data 1).1 invalidEmailResponse { success := false, message := some (js "Invalid email") }
      rfl rfl rfl⟩

/-! ### Classification and retry policy -/

/-- C29: for every error message, if `handleSubmissionError` classifies it as `duplicate`
or as `validation`, then `submitWithRetry` treats an attempt that fails with that message
as non-retryable. -/
theorem classification_agrees_with_retry (message : JSString)
    (hclass : (classifyError (toLowerCase message)).2 = "duplicate" ∨
      (classifyError (toLowerCase message)).2 = "validation") :
    shouldNotRetry message = true ∧
      ∀ (config : Config) (post : Nat → FetchOutcome) (data : SubmissionData) (attempt : Nat),
        attemptOnce (post attempt) = .error message →
        (submitWithRetry config post data attempt).events = [.post attempt data] ∧
          (submitWithRetry config post data attempt).result = .error message := by
  have hno : shouldNotRetry message = true := by
    by_cases hdup : includes (toLowerCase message) (js "already subscribed") = true
    · exact shouldNotRetry_of_includes message _ (by decide) hdup
    · by_cases hval : includes (toLowerCase message) (js "invalid email") = true
      · exact shouldNotRetry_of_includes message _ (by decide) hval
      · exfalso
        have hdup2 : includes (toLowerCase message) (js "already subscribed") = false := by
          simpa using hdup
        have hval2 : includes (toLowerCase message) (js "invalid email") = false := by
          simpa using hval
        revert hclass
        simp only [classifyError, hdup2, hval2, Bool.false_eq_true, if_false]
        split_ifs <;> simp
  refine ⟨hno, ?_⟩
  intro config post data attempt hfail
  rw [submitWithRetry_of_final config post data attempt message hfail (Or.inr hno)]
  exact ⟨rfl, rfl⟩

/-- Witness of C29: the message `Invalid email` is classified as `validation` and is not
retried. -/
theorem classification_agrees_with_retry_witness :
    (classifyError (toLowerCase (js "Invalid email"))).2 = "validation" ∧
      shouldNotRetry (js "Invalid email") = true :=
  ⟨by decide, (classification_agrees_with_retry (js "Invalid email") (Or.inr (by decide))).1⟩

/-! ### The rule names of the built-in forms -/

/-- C30: every rule name bound to a field of the contact and newsletter descriptors is
registered by `setupValidators`, so that `validateField` on a field of these forms, with
any value, finds each validator and returns a boolean, and so does `validateForm`: the
lookup of a missing validator is not reached. -/
theorem builtin_rules_registered (contactForm newsletterForm : Option FormElement)
    (formName : String) (formData : FormData)
    (hform : initializeForms contactForm newsletterForm formName = some formData) :
    (∀ entry ∈ formData.fields, ∀ r ∈ entry.2, (setupValidators r).isSome = true) ∧
      (∀ entry ∈ formData.fields, ∀ field : Field,
        ∃ b, (validateField setupValidators field entry.2).result = some b) ∧
      ∃ b, (validateForm setupValidators (initializeForms contactForm newsletterForm)
        formName).result = some b := by
  have hreg : ∀ entry ∈ formData.fields, ∀ r ∈ entry.2, (setupValidators r).isSome = true := by
    have hcontact : ∀ entry ∈ [("name", ["required", "name"]), ("email", ["required", "email"]),
        ("phone", ["phone"]), ("service", ["required", "service"]),
        ("message", ["required", "message"])],
        ∀ r ∈ entry.2, (setupValidators r).isSome = true := by decide
    have hnewsletter : ∀ entry ∈ [("email", ["required", "email"])],
        ∀ r ∈ entry.2, (setupValidators r).isSome = true := by decide
    by_cases hc : formName = "contact"
    · subst hc
      cases contactForm with
      | none => simp [initializeForms] at hform
      | some element =>
        simp only [initializeForms, if_true, Option.map_some', Option.some.injEq] at hform
        subst hform
        exact hcontact
    · by_cases hn : formName = "newsletter"
      · subst hn
        cases newsletterForm with
        | none => simp [initializeForms] at hform
        | some element =>
          have hne : ¬ ("newsletter" = "contact") := by decide
          simp only [initializeForms, hne, if_false, if_true, Option.map_some',
            Option.some.injEq] at hform
          subst hform
          exact hnewsletter
      · simp [initializeForms, hc, hn] at hform
  refine ⟨hreg, ?_, ?_⟩
  · intro entry hentry field
    exact Option.isSome_iff_exists.mp
      (validateField_result_isSome setupValidators field entry.2 (hreg entry hentry))
  · apply Option.isSome_iff_exists.mp
    apply validateForm_result_isSome
    intro fd hfd
    rw [hform] at hfd
    cases hfd
    exact hreg

/-- Witness of C30: the contact form of a page. -/
theorem builtin_rules_registered_witness :
    initializeForms (some pageWithBadEmail) none "contact" = some (contactData pageWithBadEmail) ∧
      (∀ entry ∈ (contactData pageWithBadEmail).fields,
        ∀ r ∈ entry.2, (setupValidators r).isSome = true) ∧
      (∀ entry ∈ (contactData pageWithBadEmail).fields, ∀ field : Field,
        ∃ b, (validateField setupValidators field entry.2).result = some b) ∧
      ∃ b, (validateForm setupValidators (initializeForms (some pageWithBadEmail) none)
        "contact").result = some b :=
  ⟨rfl, builtin_rules_registered (some pageWithBadEmail) none "contact"
    (contactData pageWithBadEmail) rfl⟩

/-! ### Notifications: at most one whose dismissal has not begun -/

/-- Changing the elements of a list without undoing a dismissal leaves no more
notifications whose dismissal has not begun. -/
theorem active_map_le (f : NotificationElement → NotificationElement)
    (hf : ∀ n, (f n).dismissed = false → n.dismissed = false) (body : List NotificationElement) :
    ((body.map f).filter fun n => !n.dismissed).length ≤
      (body.filter fun n => !n.dismissed).length := by
  induction body with
  | nil => simp
  | cons n rest ih =>
    simp only [List.map_cons, List.filter_cons]
    cases hfn : (f n).dismissed with
    | true =>
      cases hn : n.dismissed with
      | true => simpa using ih
      | false =>
        simp only [Bool.not_true, Bool.false_eq_true, if_false, Bool.not_false, if_true,
          List.length_cons]
        omega
    | false =>
      have hn := hf n hfn
      simp only [hn, Bool.not_false, if_true, List.length_cons]
      omega

/-- Taking elements out of a list leaves no more notifications whose dismissal has not
begun. -/
theorem active_filter_le (keep : NotificationElement → Bool) (body : List NotificationElement) :
    ((body.filter keep).filter fun n => !n.dismissed).length ≤
      (body.filter fun n => !n.dismissed).length := by
  induction body with
  | nil => simp
  | cons n rest ih =>
    cases hk : keep n <;> cases hd : n.dismissed <;>
      simp only [List.filter_cons, hk, hd, Bool.not_true, Bool.not_false, Bool.false_eq_true,
        if_false, if_true, List.length_cons] <;>
      omega

/-- The method `hideNotification` adds no notification whose dismissal has not begun. -/
theorem hideNotification_active_le (p : Page) (id : Nat) :
    (p.hideNotification id).active.length ≤ p.active.length := by
  apply active_map_le
  intro n hn
  by_cases h : n.id = id
  · simp [h] at hn
  · simpa [h] using hn

/-- The callback of a timer adds no notification whose dismissal has not begun. -/
theorem callback_active_le (p : Page) (action : TimerAction) :
    (p.callback action).active.length ≤ p.active.length := by
  cases action with
  | enter id =>
    apply active_map_le
    intro n hn
    by_cases h : n.id = id
    · simpa [h] using hn
    · simpa [h] using hn
  | autoRemove id => exact hideNotification_active_le p id
  | remove id => exact active_filter_le _ p.body
  | listen id => exact Nat.le_refl _

/-- The firing of the next timer adds no notification whose dismissal has not begun. -/
theorem fireNext_active_le (p : Page) : p.fireNext.active.length ≤ p.active.length := by
  unfold Page.fireNext
  cases p.nextTimer with
  | none => exact Nat.le_refl _
  | some t => exact callback_active_le _ t.action

/-- A click on the document adds no notification whose dismissal has not begun. -/
theorem clickDocument_active_le (p : Page) (target : Option Nat) :
    (p.clickDocument target).active.length ≤ p.active.length := by
  unfold Page.clickDocument
  generalize p.listeners = registered
  induction registered generalizing p with
  | nil => exact Nat.le_refl _
  | cons id rest ih =>
    rw [List.foldl_cons]
    refine Nat.le_trans (ih _) ?_
    split
    · exact Nat.le_refl _
    · exact hideNotification_active_le (p.clearAutoRemove id) id

/-- A click on a close button adds no notification whose dismissal has not begun. -/
theorem clickClose_active_le (p : Page) (id : Nat) :
    (p.clickClose id).active.length ≤ p.active.length := by
  unfold Page.clickClose
  split
  · refine Nat.le_trans (clickDocument_active_le _ _) ?_
    exact hideNotification_active_le (p.clearAutoRemove id) id
  · exact Nat.le_refl _

/-- Hiding the notifications of a list one after another hides, in the page, exactly the
elements that have the identity of one of them. -/
theorem hideAll_body (found : List NotificationElement) (p : Page) :
    (found.foldl (fun q n => q.hideNotification n.id) p).body =
      p.body.map fun n =>
        if found.any (fun m => m.id == n.id) then
          { n with transform := .offscreen, dismissed := true }
        else n := by
  induction found generalizing p with
  | nil => simp
  | cons m rest ih =>
    simp only [List.foldl_cons]
    rw [ih (p.hideNotification m.id)]
    simp only [Page.hideNotification, List.map_map]
    apply List.map_congr_left
    intro n _
    by_cases h : n.id = m.id
    · simp [h]
    · have h2 : ¬ m.id = n.id := fun e => h e.symm
      simp [h, h2]

/-- Hiding the notifications of a list leaves the clock and the counter of identities as
they were. -/
theorem hideAll_frame (found : List NotificationElement) (p : Page) :
    (found.foldl (fun q n => q.hideNotification n.id) p).now = p.now ∧
      (found.foldl (fun q n => q.hideNotification n.id) p).nextId = p.nextId := by
  induction found generalizing p with
  | nil => exact ⟨rfl, rfl⟩
  | cons m rest ih => exact ih (p.hideNotification m.id)

/-- Hiding the notifications of a list keeps the timers that were pending. -/
theorem hideAll_timers_mono (found : List NotificationElement) (p : Page) (t : Timer)
    (ht : t ∈ p.timers) : t ∈ (found.foldl (fun q n => q.hideNotification n.id) p).timers := by
  induction found generalizing p with
  | nil => exact ht
  | cons m rest ih =>
    exact ih (p.hideNotification m.id) (by simp [Page.hideNotification, ht])

/-- Hiding the notifications of a list schedules the removal of each of them 300 later. -/
theorem hideAll_schedules_removal (found : List NotificationElement) (p : Page)
    (n : NotificationElement) (hn : n ∈ found) :
    ∃ t ∈ (found.foldl (fun q n => q.hideNotification n.id) p).timers,
      t.due = p.now + 300 ∧ t.action = .remove n.id := by
  induction found generalizing p with
  | nil => simp at hn
  | cons m rest ih =>
    simp only [List.foldl_cons]
    rcases List.mem_cons.mp hn with rfl | hrest
    · exact ⟨{ handle := p.nextHandle, due := p.now + 300, action := .remove n.id },
        hideAll_timers_mono rest _ _ (by simp [Page.hideNotification]), rfl, rfl⟩
    · obtain ⟨t, ht, hdue, hact⟩ := ih (p.hideNotification m.id) hrest
      exact ⟨t, ht, hdue, hact⟩

/-- The page after `showNotification`: the elements it held, each hidden, then the new
element. -/
theorem showNotification_body (p : Page) (type : String) (message : JSString) (duration : Nat) :
    (p.showNotification type message duration).body =
      (p.body.map fun n => { n with transform := .offscreen, dismissed := true }) ++
        [{ id := p.nextId, type := type, message := message, transform := .offscreen,
           dismissed := false }] := by
  simp only [Page.showNotification]
  rw [hideAll_body, (hideAll_frame p.body p).2]
  congr 1
  apply List.map_congr_left
  intro n hn
  have hany : (p.body.any fun m => m.id == n.id) = true :=
    List.any_eq_true.mpr ⟨n, hn, by simp⟩
  simp [hany]

/-- After `showNotification` exactly one notification has its dismissal not begun. -/
theorem showNotification_active (p : Page) (type : String) (message : JSString)
    (duration : Nat) : (p.showNotification type message duration).active.length = 1 := by
  unfold Page.active
  rw [showNotification_body, List.filter_append]
  have hnone : ((p.body.map fun n => { n with transform := Transform.offscreen, dismissed := true }).filter
      fun n => !n.dismissed) = [] := by
    apply List.filter_eq_nil_iff.mpr
    intro n hn
    obtain ⟨m, _, rfl⟩ := List.mem_map.mp hn
    simp
  rw [hnone]
  rfl

/-- One input leaves at most one notification whose dismissal has not begun, when there
was at most one. -/
theorem step_active_le_one (p : Page) (input : Input) (h : p.active.length ≤ 1) :
    (p.step input).active.length ≤ 1 := by
  have hadv : ∀ time, (p.advance time).active = p.active := fun _ => rfl
  cases input with
  | «show» time type message duration =>
    exact Nat.le_of_eq (showNotification_active _ type message duration)
  | fireNext => exact Nat.le_trans (fireNext_active_le p) h
  | clickClose time id =>
    refine Nat.le_trans (clickClose_active_le _ id) ?_
    rw [hadv]
    exact h
  | clickDocument time target =>
    refine Nat.le_trans (clickDocument_active_le _ target) ?_
    rw [hadv]
    exact h

/-- A list of inputs leaves at most one notification whose dismissal has not begun, when
there was at most one. -/
theorem run_active_le_one (inputs : List Input) (p : Page) (h : p.active.length ≤ 1) :
    (p.run inputs).active.length ≤ 1 := by
  induction inputs generalizing p with
  | nil => exact h
  | cons input rest ih => exact ih (p.step input) (step_active_le_one p input h)

/-- C23 (as stated) fails: after a second notification is triggered 2 seconds after the
first, the two notification elements are both in the page. -/
theorem two_notifications_coexist :
    Page.initial.timelyRun twoNotifications = true ∧
      (Page.initial.run twoNotifications).body.length = 2 ∧
      (Page.initial.run twoNotifications).body.map NotificationElement.id = [0, 1] := by
  decide

/-- C23 (amended): at every instant, whatever calls of `showNotification`, timers and
clicks came before, at most one notification in the page has its dismissal not begun; a
call of `showNotification` begins the dismissal of every notification in the page (each is
sent out of view and its removal is scheduled 300 later, until when it stays in the page)
and appends the new one, which is the only one not dismissed. -/
theorem at_most_one_active_notification (inputs : List Input) (p : Page) (type : String)
    (message : JSString) (duration : Nat) :
    (Page.initial.run inputs).active.length ≤ 1 ∧
      (p.showNotification type message duration).body =
        (p.body.map fun n => { n with transform := .offscreen, dismissed := true }) ++
          [{ id := p.nextId, type := type, message := message, transform := .offscreen,
             dismissed := false }] ∧
      (p.showNotification type message duration).active.length = 1 ∧
      (∀ n ∈ p.body, ∃ t ∈ (p.showNotification type message duration).timers,
        t.due = p.now + 300 ∧ t.action = .remove n.id) := by
  refine ⟨run_active_le_one inputs Page.initial (by decide), showNotification_body p type message
    duration, showNotification_active p type message duration, ?_⟩
  intro n hn
  obtain ⟨t, ht, hdue, hact⟩ := hideAll_schedules_removal p.body p n hn
  exact ⟨t, by simp [Page.showNotification, ht], hdue, hact⟩

/-- Witness of C23: after the two notifications the first is dismissed and out of view,
and its removal is pending at 2300. -/
theorem at_most_one_active_notification_witness :
    (Page.initial.run twoNotifications).active.map NotificationElement.id = [1] ∧
      ∃ t ∈ ((Page.initial.run (twoNotifications.take 3)).showNotification "success"
          (js "Form system connected successfully!") 3000).timers,
        t.due = (Page.initial.run (twoNotifications.take 3)).now + 300 ∧ t.action = .remove 0 :=
  ⟨by decide,
    (at_most_one_active_notification [] (Page.initial.run (twoNotifications.take 3)) "success"
      (js "Form system connected successfully!") 3000).2.2.2
      { id := 0, type := "error",
        message := js "Please fix the errors in the form before submitting.",
        transform := .onscreen, dismissed := false }
      (by decide)⟩

/-! ### Notifications: the entry after a dismissal -/

/-- C24 (the code at the failing input): a first notification is shown at 0 and evicted by
a second one at 50, which begins its dismissal and sends it out of view; at 100 its entry
timer fires and brings it into view again, while it stays in the page until 350. -/
theorem dismissed_notification_enters_again :
    Page.initial.timelyRun evictedBeforeEntry = true ∧
      (Page.initial.run (evictedBeforeEntry.take 2)).body.map
          (fun n => (n.id, n.dismissed, n.transform)) =
        [(0, true, .offscreen), (1, false, .offscreen)] ∧
      (Page.initial.run evictedBeforeEntry).now = 100 ∧
      (Page.initial.run evictedBeforeEntry).body.map
          (fun n => (n.id, n.dismissed, n.transform)) =
        [(0, true, .onscreen), (1, false, .offscreen)] ∧
      { handle := 3, due := 350, action := .remove 0 } ∈
        (Page.initial.run evictedBeforeEntry).timers := by
  decide

end FormValidation
